import Mathlib

/-! Register-driven peripheral reconfiguration.

A shallow embedding of the chip models of the emulator:

* `src/sio/sio_vl82c107.c`   : the VLSI VL82C107 SCAMP I/O combo (index port 0xEC, data port 0xED);
* `src/chipset/epson_e01161na.c` : the EPSON E01161NA gate array (ports 0x1B0 to 0x1BF);
* `src/chipset/olivetti_nord.c`, `epson_e01243nc.c`, `olivetti_eva.c`, `olivetti_ioc02.c` : the
  smaller register-file chips.

Conventions of the embedding.

* A `uint8_t` array is a function from offset to value (`Nat → Nat`); the store `a[i] = v` is
  `setReg a i v`.  Bytes are natural numbers below 256; `^`, `&`, `|`, `>>` of C are
  `^^^`, `&&&`, `|||`, `>>>` on `Nat`, which agree with the C operators on bytes.
* A C condition `if (e)` on an integer `e` is `if e ≠ 0`.
* Every function of the emulator that a handler calls on another component (parallel port, UART,
  IDE channel, floppy controller, memory manager, device registry) is recorded as one `Call`; a
  handler returns the new device state together with the list of calls it made, in order.
* The opaque handles `dev->uart[0]`, `dev->uart[1]` are named by their slot (0, 1); the single
  `dev->uart` of the gate array is slot 0; `dev->fdc` is the only floppy handle and is left implicit.
* The diagnostic log (`pclog_ex`) is not part of the model.
* The globals `is386` and `mem_size` are explicit parameters.
-/

/-- Device descriptors handed to the device registry at initialisation. -/
inductive Device
  | fdc_at_nsc_device
  | ns16550_device
  | ide_isa_device
  deriving DecidableEq, Repr

/-- One call from a chip model to an external collaborator. -/
inductive Call
  | lpt1_remove
  | lpt1_init (port : Nat)
  | lpt1_irq (irq : Nat)
  | serial_remove (uart : Nat)
  | serial_setup (uart addr irq : Nat)
  | ide_pri_disable
  | ide_set_base (board port : Nat)
  | ide_set_side (board port : Nat)
  | ide_pri_enable
  | fdc_remove
  | fdc_set_base (base : Nat)
  | fdc_reset
  | mem_remap_top (kb : Nat)
  | device_add (d : Device)
  | device_add_inst (d : Device) (inst : Nat)
  | io_sethandler (base len : Nat)
  deriving DecidableEq, Repr

/-- The store `a[i] = v` on a register file. -/
def setReg (a : Nat → Nat) (i v : Nat) : Nat → Nat :=
  fun j => if j = i then v else a j

/-- One port write as seen by the I/O dispatcher: the port and the byte. -/
structure PortWrite where
  port : Nat
  val : Nat
  deriving DecidableEq, Repr

namespace VL82C107

/-- The `vl82c107_t` record: `index`, `fdc_function` and `regs[256]`. -/
structure vl82c107_t where
  index : Nat
  fdc_function : Nat
  regs : Nat → Nat

/-- The static `lpt1_handler`: decode bits 4-5 of the register selected by the index. -/
def lpt1_handler (dev : vl82c107_t) : List Call :=
  let temp := (dev.regs dev.index >>> 4) &&& 3
  let cfg : Nat × Nat :=
    match temp with
    | 0 => (0x3bc, 7)
    | 1 => (0x378, 7)
    | 2 => (0x278, 7)
    | 3 => (0x000, 0xff)
    | _ => (0x378, 7)
  (if cfg.1 ≠ 0 then [Call.lpt1_init cfg.1] else []) ++ [Call.lpt1_irq cfg.2]

/-- The static `serial_handler`: attach UART `uart` when bit `2 + uart` of the selected register
is clear, at the COM1/COM2 addresses when bit 1 is set and at COM3/COM4 otherwise. -/
def serial_handler (dev : vl82c107_t) (uart : Nat) : List Call :=
  let temp := (dev.regs dev.index >>> (2 + uart)) &&& 1
  if temp = 0 then
    if uart ≠ 0 then
      if (dev.regs dev.index >>> 1) &&& 1 ≠ 0 then [Call.serial_setup uart 0x2f8 3]
      else [Call.serial_setup uart 0x2e8 3]
    else
      if (dev.regs dev.index >>> 1) &&& 1 ≠ 0 then [Call.serial_setup uart 0x3f8 4]
      else [Call.serial_setup uart 0x3e8 4]
  else []

/-- The IDE branch of `case 0x1e` in `vl82c107_write`. -/
def csctrl_ide (val valxor : Nat) : List Call :=
  if valxor &&& 0x1 ≠ 0 then
    [Call.ide_pri_disable] ++
      (if val &&& 0x1 ≠ 0 then
        [Call.ide_set_base 0 0x1f0, Call.ide_set_side 0 0x3f6, Call.ide_pri_enable]
      else [])
  else []

/-- The serial branch of `case 0x1e` in `vl82c107_write`. -/
def csctrl_serial (dev : vl82c107_t) (val valxor : Nat) : List Call :=
  if valxor &&& 0xe ≠ 0 then
    [Call.serial_remove 0, Call.serial_remove 1] ++
      (if val &&& 4 ≠ 0 then serial_handler dev 0 else []) ++
      (if val &&& 8 ≠ 0 then serial_handler dev 1 else [])
  else []

/-- The parallel-port branch of `case 0x1e` in `vl82c107_write`. -/
def csctrl_lpt (dev : vl82c107_t) (val valxor : Nat) : List Call :=
  if valxor &&& 0x70 ≠ 0 then
    [Call.lpt1_remove] ++
      (if val &&& 0x40 ≠ 0 ∧ ¬ (val &&& 0x20 ≠ 0 ∧ val &&& 0x10 ≠ 0) then lpt1_handler dev
      else [])
  else []

/-- The floppy branch of `case 0x1e` in `vl82c107_write`, gated by `HAS_FDC_FUNCTIONALITY`. -/
def csctrl_fdc (dev : vl82c107_t) (val valxor : Nat) : List Call :=
  if valxor &&& 0x80 ≠ 0 ∧ dev.fdc_function ≠ 0 then
    [Call.fdc_remove] ++ (if val &&& 0x80 ≠ 0 then [Call.fdc_set_base 0x3f0] else [])
  else []

/-- The port-write handler `vl82c107_write`. -/
def vl82c107_write (port val : Nat) (dev : vl82c107_t) : vl82c107_t × List Call :=
  match port with
  | 0xec => ({ dev with index := val }, [])
  | 0xed =>
    if 0x1b ≤ dev.index ∧ dev.index ≤ 0x1f then
      let valxor := val ^^^ dev.regs dev.index
      let dev1 : vl82c107_t := { dev with regs := setReg dev.regs dev.index val }
      match dev1.index with
      | 0x1e =>
        (dev1, csctrl_ide val valxor ++ csctrl_serial dev1 val valxor ++
                csctrl_lpt dev1 val valxor ++ csctrl_fdc dev1 val valxor)
      | _ => (dev1, [])
    else (dev, [])
  | _ => (dev, [])

/-- The port-read handler `vl82c107_read`. -/
def vl82c107_read (port : Nat) (dev : vl82c107_t) : Nat :=
  match port with
  | 0xec => dev.index
  | 0xed => if 0x1b ≤ dev.index ∧ dev.index ≤ 0x1f then dev.regs dev.index else 0xff
  | _ => 0xff

/-- The routine `vl82c107_reset`: register defaults, then the initial attach pass. -/
def vl82c107_reset (dev : vl82c107_t) : vl82c107_t × List Call :=
  let dev1 : vl82c107_t := { dev with regs := setReg (setReg dev.regs 0x1e 0xcf) 0x1f 0x70 }
  (dev1,
    [Call.lpt1_remove] ++ lpt1_handler dev1 ++
    [Call.serial_remove 0, Call.serial_remove 1] ++
    serial_handler dev1 0 ++ serial_handler dev1 1 ++
    (if dev1.fdc_function ≠ 0 then [Call.fdc_reset] else []))

/-- The constructor `vl82c107_init`; `local_flag` is `info->local`, stored in a `uint8_t`. -/
def vl82c107_init (local_flag : Nat) : vl82c107_t × List Call :=
  let dev0 : vl82c107_t := { index := 0, fdc_function := local_flag % 256, regs := fun _ => 0 }
  let r := vl82c107_reset dev0
  (r.1,
    (if dev0.fdc_function ≠ 0 then [Call.device_add Device.fdc_at_nsc_device] else []) ++
    [Call.device_add_inst Device.ns16550_device 1, Call.device_add_inst Device.ns16550_device 2,
     Call.device_add Device.ide_isa_device] ++
    r.2 ++ [Call.io_sethandler 0xec 0x0002])

/-- A sequence of port writes applied in order, with the calls of all of them concatenated. -/
def run (dev : vl82c107_t) : List PortWrite → vl82c107_t × List Call
  | [] => (dev, [])
  | w :: ws =>
    let r := vl82c107_write w.port w.val dev
    let rest := run r.1 ws
    (rest.1, r.2 ++ rest.2)

end VL82C107

namespace E01161NA

/-- The `epson_e01161na_t` record: the sixteen registers `reg[0x10]`. -/
structure epson_e01161na_t where
  reg : Nat → Nat

/-- The static `lpt1_handler`: decode bits 4-5 of register 0. -/
def lpt1_handler (dev : epson_e01161na_t) : List Call :=
  let temp := (dev.reg 0 >>> 4) &&& 3
  let cfg : Nat × Nat :=
    match temp with
    | 2 => (0x278, 7)
    | 3 => (0x378, 7)
    | _ => (0x000, 0xff)
  (if cfg.1 ≠ 0 then [Call.lpt1_init cfg.1] else []) ++ [Call.lpt1_irq cfg.2]

/-- The static `serial_handler`: decode bits 6-7 of register 0. -/
def serial_handler (dev : epson_e01161na_t) : List Call :=
  let temp := (dev.reg 0 >>> 6) &&& 3
  match temp with
  | 2 => [Call.serial_setup 0 0x2f8 3]
  | 3 => [Call.serial_setup 0 0x3f8 4]
  | _ => []

/-- The port-write handler `epson_e01161na_write`; `is386` is the CPU-generation global. -/
def epson_e01161na_write (is386 : Nat) (port val : Nat) (dev : epson_e01161na_t) :
    epson_e01161na_t × List Call :=
  let addr := port &&& 0xf
  let valxor := val ^^^ dev.reg addr
  let dev1 : epson_e01161na_t := { reg := setReg dev.reg addr val }
  match addr with
  | 0 =>
    (dev1,
      (if valxor &&& 0xc0 ≠ 0 then
        [Call.serial_remove 0] ++ (if val &&& 0x80 ≠ 0 then serial_handler dev1 else [])
      else []) ++
      (if valxor &&& 0x30 ≠ 0 then
        [Call.lpt1_remove] ++ (if val &&& 0x20 ≠ 0 then lpt1_handler dev1 else [])
      else []))
  | 3 =>
    (dev1,
      if valxor &&& 0x30 ≠ 0 ∧ is386 = 0 then
        if val &&& 0x10 ≠ 0 ∧ ¬ (val &&& 0x20 ≠ 0) then [Call.mem_remap_top 384]
        else [Call.mem_remap_top 0]
      else [])
  | _ => (dev1, [])

/-- The port-read handler `epson_e01161na_read`; `is386` and `mem_size` are the globals it
consults. -/
def epson_e01161na_read (is386 mem_size : Nat) (port : Nat) (dev : epson_e01161na_t) : Nat :=
  let addr := port &&& 0xf
  let ret := dev.reg addr
  match addr with
  | 3 =>
    if is386 ≠ 0 then
      let ret := ret &&& 0xf8
      match mem_size with
      | 0x400 => ret
      | 0x800 => ret ||| 1
      | 0xc00 => ret ||| 1
      | 0x1000 => ret ||| 2
      | 0x1400 => ret ||| 2
      | _ => ret ||| 3
    else
      let ret := ret &&& 0xf1
      match mem_size with
      | 0x400 => ret
      | 0x800 => ret ||| 0xc
      | 0xc00 => ret ||| 0xa
      | 0x1000 => ret ||| 0xa
      | _ => ret ||| 0xe
  | 6 => 0x10
  | _ => ret

/-- The routine `epson_e01161na_reset`: the initial attach pass. -/
def epson_e01161na_reset (dev : epson_e01161na_t) : List Call :=
  [Call.lpt1_remove] ++ lpt1_handler dev ++ [Call.serial_remove 0] ++ serial_handler dev

/-- The constructor `epson_e01161na_init`. -/
def epson_e01161na_init : epson_e01161na_t × List Call :=
  let dev0 : epson_e01161na_t := { reg := fun _ => 0 }
  (dev0,
    [Call.device_add_inst Device.ns16550_device 1] ++ epson_e01161na_reset dev0 ++
    [Call.io_sethandler 0x01b0 0x0010])

/-- A sequence of port writes applied in order, with the calls of all of them concatenated. -/
def run (is386 : Nat) (dev : epson_e01161na_t) : List PortWrite → epson_e01161na_t × List Call
  | [] => (dev, [])
  | w :: ws =>
    let r := epson_e01161na_write is386 w.port w.val dev
    let rest := run is386 r.1 ws
    (rest.1, r.2 ++ rest.2)

end E01161NA

/-! ## The Olivetti NORD gate array (`src/chipset/olivetti_nord.c`)

The global `hasfpu` is an explicit parameter of the read handler. -/

/-- The `olivetti_nord_t` record: the registers `reg[0x9]` and `mem_remap`. The array is the
part of `reg` below `olivetti_nord_reg_len`; an index at or above it is a location past the end of
the array. -/
structure olivetti_nord_t where
  reg : Nat → Nat
  mem_remap : Nat

/-- The declared length of the register array, `reg[0x9]`. -/
def olivetti_nord_reg_len : Nat := 0x9

/-- The port-write handler `olivetti_nord_write`: the `switch` after the store has no live case. -/
def olivetti_nord_write (port val : Nat) (dev : olivetti_nord_t) : olivetti_nord_t × List Call :=
  let addr := port &&& 0xf
  ({ dev with reg := setReg dev.reg addr (val &&& 0xdf) }, [])

/-- The port-read handler `olivetti_nord_read`. -/
def olivetti_nord_read (hasfpu : Nat) (port : Nat) (dev : olivetti_nord_t) : Nat :=
  let addr := port &&& 0xf
  let ret := dev.reg addr
  match addr with
  | 3 =>
    let ret := dev.reg addr &&& 0xdf
    if hasfpu ≠ 0 then ret ||| 0x20 else ret
  | _ => ret

/-- The constructor `olivetti_nord_init`. -/
def olivetti_nord_init : olivetti_nord_t × List Call :=
  ({ reg := fun _ => 0, mem_remap := 0 },
    [Call.io_sethandler 0x0010 0x0004, Call.io_sethandler 0x0094 0x0001,
     Call.io_sethandler 0x0098 0x0001, Call.mem_remap_top 384])

/-- A sequence of port writes applied in order to the NORD gate array. -/
def olivetti_nord_run (dev : olivetti_nord_t) : List PortWrite → olivetti_nord_t
  | [] => dev
  | w :: ws => olivetti_nord_run (olivetti_nord_write w.port w.val dev).1 ws

/-! ## The EPSON E01243NC gate array (`src/chipset/epson_e01243nc.c`) -/

/-- The `epson_e01243nc_t` record. -/
structure epson_e01243nc_t where
  reg_065 : Nat
  reg_067 : Nat
  reg_069 : Nat
  deriving DecidableEq, Repr

/-- The port-write handler `epson_e01243nc_write`. -/
def epson_e01243nc_write (addr val : Nat) (dev : epson_e01243nc_t) :
    epson_e01243nc_t × List Call :=
  match addr with
  | 0x065 => ({ dev with reg_065 := val }, [])
  | 0x067 => ({ dev with reg_067 := val }, [])
  | 0x069 => ({ dev with reg_069 := val }, [])
  | _ => (dev, [])

/-- The port-read handler `epson_e01243nc_read`. -/
def epson_e01243nc_read (addr : Nat) (dev : epson_e01243nc_t) : Nat :=
  match addr with
  | 0x065 => dev.reg_065
  | 0x067 => dev.reg_067
  | 0x069 => dev.reg_069
  | _ => 0xff

/-- The constructor `epson_e01243nc_init`. -/
def epson_e01243nc_init : epson_e01243nc_t × List Call :=
  ({ reg_065 := 0xff, reg_067 := 0xff, reg_069 := 0x00 }, [Call.io_sethandler 0x00e5 0x0003])

/-! ## The Olivetti EVA gate array (`src/chipset/olivetti_eva.c`) -/

/-- The `olivetti_eva_t` record. -/
structure olivetti_eva_t where
  reg_065 : Nat
  reg_067 : Nat
  reg_069 : Nat
  deriving DecidableEq, Repr

/-- The port-write handler `olivetti_eva_write`: every side effect in it is commented out. -/
def olivetti_eva_write (addr val : Nat) (dev : olivetti_eva_t) : olivetti_eva_t × List Call :=
  match addr with
  | 0x065 => ({ dev with reg_065 := val }, [])
  | 0x067 => ({ dev with reg_067 := val }, [])
  | 0x069 => ({ dev with reg_069 := val }, [])
  | _ => (dev, [])

/-- The port-read handler `olivetti_eva_read`. -/
def olivetti_eva_read (addr : Nat) (dev : olivetti_eva_t) : Nat :=
  match addr with
  | 0x065 => dev.reg_065
  | 0x067 => dev.reg_067
  | 0x069 => dev.reg_069
  | _ => 0xff

/-- The constructor `olivetti_eva_init`. -/
def olivetti_eva_init : olivetti_eva_t × List Call :=
  ({ reg_065 := 0x00, reg_067 := 0x00, reg_069 := 0x0 },
    [Call.io_sethandler 0x0065 0x0001, Call.io_sethandler 0x0067 0x0001,
     Call.io_sethandler 0x0069 0x0001, Call.mem_remap_top 384, Call.mem_remap_top 256])

/-! ## The Olivetti IOC02 I/O controller (`src/chipset/olivetti_ioc02.c`) -/

/-- The `olivetti_ioc02_t` record. -/
structure olivetti_ioc02_t where
  reg_068 : Nat
  reg_06a : Nat
  reg_06c : Nat
  deriving DecidableEq, Repr

/-- The port-write handler `olivetti_ioc02_write`. -/
def olivetti_ioc02_write (addr val : Nat) (dev : olivetti_ioc02_t) :
    olivetti_ioc02_t × List Call :=
  match addr with
  | 0x068 => ({ dev with reg_068 := val }, [])
  | 0x06a => ({ dev with reg_06a := val }, [])
  | 0x06c => ({ dev with reg_06c := val }, [])
  | _ => (dev, [])

/-- The port-read handler `olivetti_ioc02_read`. -/
def olivetti_ioc02_read (addr : Nat) (dev : olivetti_ioc02_t) : Nat :=
  match addr with
  | 0x068 => dev.reg_068
  | 0x06a => dev.reg_06a
  | 0x06c => dev.reg_06c
  | _ => 0xff

/-- The constructor `olivetti_ioc02_init`. -/
def olivetti_ioc02_init : olivetti_ioc02_t × List Call :=
  ({ reg_068 := 0x04, reg_06a := 0x04, reg_06c := 0xff },
    [Call.io_sethandler 0x0068 0x0001, Call.io_sethandler 0x006a 0x0001,
     Call.io_sethandler 0x006c 0x0001])

/-! ## Vocabulary of the properties -/

/-- The peripheral class a call acts on. -/
inductive Peripheral
  | ide
  | serial
  | parallel
  | floppy
  | other
  deriving DecidableEq, Repr

/-- The class of each call: `lpt1_*` is parallel, `serial_*` serial, `ide_*` IDE, `fdc_*` floppy. -/
def Call.peripheral : Call → Peripheral
  | .lpt1_remove => .parallel
  | .lpt1_init _ => .parallel
  | .lpt1_irq _ => .parallel
  | .serial_remove _ => .serial
  | .serial_setup _ _ _ => .serial
  | .ide_pri_disable => .ide
  | .ide_set_base _ _ => .ide
  | .ide_set_side _ _ => .ide
  | .ide_pri_enable => .ide
  | .fdc_remove => .floppy
  | .fdc_set_base _ => .floppy
  | .fdc_reset => .floppy
  | .mem_remap_top _ => .other
  | .device_add _ => .other
  | .device_add_inst _ _ => .other
  | .io_sethandler _ _ => .other

/-- The class that owns bit `k` of the master control byte (CSCTRL) of the VL82C107. -/
def csctrlOwner (k : Nat) : Peripheral :=
  if k = 0 then .ide else if k ≤ 3 then .serial else if k ≤ 6 then .parallel else .floppy

/-- A singleton resource that is bound and released. -/
inductive Resource
  | lpt1
  | uart (slot : Nat)
  | ide_pri
  | fdc
  deriving DecidableEq, Repr

/-- The bind call of each resource. -/
def isBind (r : Resource) : Call → Bool
  | .lpt1_init _ => r = .lpt1
  | .serial_setup u _ _ => r = .uart u
  | .ide_pri_enable => r = .ide_pri
  | .fdc_set_base _ => r = .fdc
  | _ => false

/-- The release call of each resource. -/
def isRelease (r : Resource) : Call → Bool
  | .lpt1_remove => r = .lpt1
  | .serial_remove u => r = .uart u
  | .ide_pri_disable => r = .ide_pri
  | .fdc_remove => r = .fdc
  | _ => false

/-- Detach-before-attach on a trace, for resource `r`: `released` says whether a release of `r` has
been seen since the last bind of `r` (or since the start); a bind is allowed only then. -/
def detachBeforeAttach (r : Resource) : Bool → List Call → Bool
  | _, [] => true
  | released, c :: cs =>
    if isBind r c then released && detachBeforeAttach r false cs
    else if isRelease r c then detachBeforeAttach r true cs
    else detachBeforeAttach r released cs

/-- Detach-before-attach in words: whenever the trace reads `pre ++ b :: post` with `b` a bind of
`r`, the part `pre` contains a release of `r` after which `pre` has no bind of `r`. -/
def EveryBindAfterRelease (r : Resource) (t : List Call) : Prop :=
  ∀ pre b post, t = pre ++ b :: post → isBind r b = true →
    ∃ p1 rel p2, pre = p1 ++ rel :: p2 ∧ isRelease r rel = true ∧ ∀ c ∈ p2, isBind r c = false

/-- Whether a call is a request to the memory manager to move the remap boundary. -/
def isMemRemap : Call → Bool
  | .mem_remap_top _ => true
  | _ => false

/-- The 386-class bucket table in the words of the specification: ordinal 0 for 1 MB, 1 for 2 or
3 MB, 2 for 4 or 5 MB, 3 for every other size (`mem_size` in KB). -/
def bucket386 (mem_size : Nat) : Nat :=
  if mem_size = 0x400 then 0
  else if mem_size = 0x800 ∨ mem_size = 0xc00 then 1
  else if mem_size = 0x1000 ∨ mem_size = 0x1400 then 2
  else 3

/-- The 286-class encoding table in the words of the specification: 0x00 for 1 MB, 0x0C for 2 MB,
0x0A for 3 or 4 MB, 0x0E for every other size (`mem_size` in KB). -/
def code286 (mem_size : Nat) : Nat :=
  if mem_size = 0x400 then 0x00
  else if mem_size = 0x800 then 0x0c
  else if mem_size = 0xc00 ∨ mem_size = 0x1000 then 0x0a
  else 0x0e

/-- Modelled from the spec: the port range a chip registers at initialisation. The registration
routine `io_sethandler(base, size, ...)` is an external collaborator; the port map of the
specification pairs `io_sethandler(0x01b0, 0x0010)` with the range 0x01B0 to 0x01BF and
`io_sethandler(0x0010, 0x0004)` with 0x0010 to 0x0013, so a registration covers `base` up to
`base + size - 1`. A port is registered when some registration of the trace covers it. -/
def registered (t : List Call) (port : Nat) : Bool :=
  t.any fun c =>
    match c with
    | .io_sethandler base len => decide (base ≤ port ∧ port < base + len)
    | _ => false

/-- Whether a call attaches a UART. -/
def isSerialSetup : Call → Bool
  | .serial_setup _ _ _ => true
  | _ => false

/-- Whether no write of the sequence, applied in order from `dev`, is a data-port write made
while the index selects register 0x1F. -/
def revidUntouched (dev : VL82C107.vl82c107_t) : List PortWrite → Bool
  | [] => true
  | w :: ws =>
    !(w.port == 0xed && dev.index == 0x1f) &&
      revidUntouched (VL82C107.vl82c107_write w.port w.val dev).1 ws

/-! ## Theorems -/

/-- Reading back the register just stored. -/
theorem setReg_same (a : Nat → Nat) (i v : Nat) : setReg a i v i = v := by
  simp [setReg]

/-- A store does not touch the other registers. -/
theorem setReg_other (a : Nat → Nat) (i v j : Nat) (h : j ≠ i) : setReg a i v j = a j := by
  simp [setReg, h]

/-- Storing the value a register already holds changes nothing. -/
theorem setReg_id (a : Nat → Nat) (i v : Nat) (h : a i = v) : setReg a i v = a := by
  funext j
  by_cases hj : j = i
  · subst hj; simp [setReg, h]
  · simp [setReg, hj]

/-- Masking distributes over a bitwise or. -/
theorem or_and_mask (a b c : Nat) : (a ||| b) &&& c = (a &&& c) ||| (b &&& c) := by
  rw [Nat.and_comm (a ||| b) c, Nat.and_or_distrib_left, Nat.and_comm c a, Nat.and_comm c b]

namespace E01161NA

/-- A write to offset 0 does not consult the CPU generation. -/
theorem write_offset0_cpu (is386 port v : Nat) (dev : epson_e01161na_t) (h : port &&& 0xf = 0) :
    epson_e01161na_write is386 port v dev = epson_e01161na_write 0 port v dev := by
  simp [epson_e01161na_write, h]

/-- Every write stores the byte at offset `port & 0xf`. -/
theorem write_fst (is386 port v : Nat) (dev : epson_e01161na_t) :
    (epson_e01161na_write is386 port v dev).1 = { reg := setReg dev.reg (port &&& 0xf) v } := by
  unfold epson_e01161na_write
  simp only
  split <;> rfl

/-- A write of the byte the register already holds makes no call. -/
theorem write_snd_of_same (is386 port v : Nat) (dev : epson_e01161na_t)
    (h : dev.reg (port &&& 0xf) = v) : (epson_e01161na_write is386 port v dev).2 = [] := by
  unfold epson_e01161na_write
  simp only [h, Nat.xor_self]
  split <;> simp

end E01161NA

namespace VL82C107

/-- The data-port write with the index on the master control byte, unfolded. -/
theorem write_csctrl (dev : vl82c107_t) (v : Nat) (h : dev.index = 0x1e) :
    vl82c107_write 0xed v dev =
      ({ dev with regs := setReg dev.regs 0x1e v },
        csctrl_ide v (v ^^^ dev.regs 0x1e) ++
        csctrl_serial { dev with regs := setReg dev.regs 0x1e v } v (v ^^^ dev.regs 0x1e) ++
        csctrl_lpt { dev with regs := setReg dev.regs 0x1e v } v (v ^^^ dev.regs 0x1e) ++
        csctrl_fdc { dev with regs := setReg dev.regs 0x1e v } v (v ^^^ dev.regs 0x1e)) := by
  simp [vl82c107_write, h]

/-- Every call of the IDE branch is an IDE call. -/
theorem csctrl_ide_class (val valxor : Nat) :
    ∀ c ∈ csctrl_ide val valxor, c.peripheral = Peripheral.ide := by
  unfold csctrl_ide
  split_ifs <;> simp [Call.peripheral]

/-- The per-UART handler makes at most one call, an attach of that UART. -/
theorem serial_handler_cases (dev : vl82c107_t) (uart : Nat) :
    serial_handler dev uart = [] ∨ ∃ a i, serial_handler dev uart = [Call.serial_setup uart a i] := by
  unfold serial_handler
  simp only
  split_ifs
  · exact Or.inr ⟨_, _, rfl⟩
  · exact Or.inr ⟨_, _, rfl⟩
  · exact Or.inr ⟨_, _, rfl⟩
  · exact Or.inr ⟨_, _, rfl⟩
  · exact Or.inl rfl

/-- The parallel-port handler attaches at most once and then sets the IRQ. -/
theorem lpt1_handler_cases (dev : vl82c107_t) :
    ∃ q, lpt1_handler dev = [Call.lpt1_irq q] ∨
      ∃ p, lpt1_handler dev = [Call.lpt1_init p, Call.lpt1_irq q] := by
  unfold lpt1_handler
  simp only
  split <;> simp

/-- Every call of the serial branch is a serial call. -/
theorem csctrl_serial_class (dev : vl82c107_t) (val valxor : Nat) :
    ∀ c ∈ csctrl_serial dev val valxor, c.peripheral = Peripheral.serial := by
  unfold csctrl_serial
  rcases serial_handler_cases dev 0 with h0 | ⟨a0, i0, h0⟩ <;>
  rcases serial_handler_cases dev 1 with h1 | ⟨a1, i1, h1⟩ <;>
  rw [h0, h1] <;> split_ifs <;> simp [Call.peripheral]

/-- Every call of the parallel-port branch is a parallel-port call. -/
theorem csctrl_lpt_class (dev : vl82c107_t) (val valxor : Nat) :
    ∀ c ∈ csctrl_lpt dev val valxor, c.peripheral = Peripheral.parallel := by
  unfold csctrl_lpt
  obtain ⟨q, h | ⟨p, h⟩⟩ := lpt1_handler_cases dev <;>
  rw [h] <;> split_ifs <;> simp [Call.peripheral]

/-- Every call of the floppy branch is a floppy call. -/
theorem csctrl_fdc_class (dev : vl82c107_t) (val valxor : Nat) :
    ∀ c ∈ csctrl_fdc dev val valxor, c.peripheral = Peripheral.floppy := by
  unfold csctrl_fdc
  split_ifs <;> simp [Call.peripheral]

end VL82C107

open VL82C107 in
/-- C1. With index 0x1E, a second data-port write of the same byte makes no external call and
leaves the device state as the first write left it. -/
theorem vl82c107_rewrite_same_value (dev : vl82c107_t) (v : Nat) (h : dev.index = 0x1e) :
    (vl82c107_write 0xed v (vl82c107_write 0xed v dev).1).2 = [] ∧
    (vl82c107_write 0xed v (vl82c107_write 0xed v dev).1).1 = (vl82c107_write 0xed v dev).1 := by
  have h1 : (vl82c107_write 0xed v dev).1.index = 0x1e := by
    rw [write_csctrl dev v h]; exact h
  have h2 : (vl82c107_write 0xed v dev).1.regs 0x1e = v := by
    rw [write_csctrl dev v h]; simp only [setReg_same]
  rw [write_csctrl _ v h1, h2]
  constructor
  · simp [csctrl_ide, csctrl_serial, csctrl_lpt, csctrl_fdc]
  · simp only
    rw [setReg_id _ _ _ h2]

open VL82C107 in
/-- Witness of C1: the device just after init with the index moved to 0x1E, byte 0x01. -/
theorem vl82c107_rewrite_same_value_witness :
    (vl82c107_write 0xec 0x1e (vl82c107_init 1).1).1.index = 0x1e ∧
    (vl82c107_write 0xed 0x01
      (vl82c107_write 0xed 0x01 (vl82c107_write 0xec 0x1e (vl82c107_init 1).1).1).1).2 = [] :=
  ⟨by decide,
   (vl82c107_rewrite_same_value (vl82c107_write 0xec 0x1e (vl82c107_init 1).1).1 0x01
      (by decide)).1⟩

namespace VL82C107

/-- The calls of one class in a trace. -/
theorem filter_class_self (p : Peripheral) (t : List Call) (h : ∀ c ∈ t, c.peripheral = p) :
    t.filter (fun c => decide (c.peripheral = p)) = t := by
  rw [List.filter_eq_self]
  intro c hc
  simp [h c hc]

/-- A trace of one class has no call of another class. -/
theorem filter_class_other (p q : Peripheral) (t : List Call) (h : ∀ c ∈ t, c.peripheral = q)
    (hpq : q ≠ p) : t.filter (fun c => decide (c.peripheral = p)) = [] := by
  rw [List.filter_eq_nil_iff]
  intro c hc
  simp [h c hc, hpq]

/-- Bit 0 of the changed-bit mask is set exactly when bit 0 of the two bytes differs. -/
theorem xor_and_one_ne_zero (v c : Nat) : (v ^^^ c) &&& 1 ≠ 0 ↔ v &&& 1 ≠ c &&& 1 := by
  rw [Nat.and_xor_distrib_right, Ne, Nat.xor_eq_zero]

end VL82C107

open VL82C107 in
/-- C2. For a data-port write of `v` with index 0x1E, the IDE calls of the write are: none when
bit 0 of `v` equals bit 0 of the stored control byte; otherwise `ide_pri_disable`, followed, iff
bit 0 of `v` is 1, by `ide_set_base(0, 0x1F0)`, `ide_set_side(0, 0x3F6)`, `ide_pri_enable`.  From a
stored control byte 0x00, writing 0x01 makes exactly these four calls and no other call. -/
theorem vl82c107_ide_decode (dev : vl82c107_t) (v : Nat) (h : dev.index = 0x1e) :
    (vl82c107_write 0xed v dev).2.filter (fun c => decide (c.peripheral = Peripheral.ide)) =
      (if v &&& 1 ≠ dev.regs 0x1e &&& 1 then
        [Call.ide_pri_disable] ++
          (if v &&& 1 = 1 then
            [Call.ide_set_base 0 0x1f0, Call.ide_set_side 0 0x3f6, Call.ide_pri_enable]
          else [])
      else []) ∧
    (dev.regs 0x1e = 0x00 →
      (vl82c107_write 0xed 0x01 dev).2 =
        [Call.ide_pri_disable, Call.ide_set_base 0 0x1f0, Call.ide_set_side 0 0x3f6,
         Call.ide_pri_enable]) := by
  constructor
  · rw [write_csctrl dev v h]
    simp only [List.filter_append]
    rw [filter_class_self _ _ (csctrl_ide_class _ _),
      filter_class_other _ _ _ (csctrl_serial_class _ _ _) (by decide),
      filter_class_other _ _ _ (csctrl_lpt_class _ _ _) (by decide),
      filter_class_other _ _ _ (csctrl_fdc_class _ _ _) (by decide)]
    simp only [List.append_nil]
    unfold csctrl_ide
    have hb : v &&& 1 ≠ 0 ↔ v &&& 1 = 1 := by
      rw [Nat.and_one_is_mod]; omega
    simp only [xor_and_one_ne_zero, hb]
  · intro h0
    rw [write_csctrl dev 0x01 h, h0]
    simp [csctrl_ide, csctrl_serial, csctrl_lpt, csctrl_fdc]

open VL82C107 in
/-- Witness of C2: a device with an all-zero register file and the index on 0x1E. -/
theorem vl82c107_ide_decode_witness :
    (vl82c107_write 0xed 0x01 { index := 0x1e, fdc_function := 1, regs := fun _ => 0 }).2 =
      [Call.ide_pri_disable, Call.ide_set_base 0 0x1f0, Call.ide_set_side 0 0x3f6,
       Call.ide_pri_enable] :=
  (vl82c107_ide_decode { index := 0x1e, fdc_function := 1, regs := fun _ => 0 } 0x01 rfl).2 rfl

open E01161NA in
/-- C3, as stated, fails: after init, 0xFF and then 0x3F written to port 0x1B0, the second write
does not release the parallel port once while leaving the serial port untouched. -/
theorem epson_e01161na_scenario1_refuted :
    ¬ (List.count Call.lpt1_remove
          (epson_e01161na_write 0 0x1b0 0x3f
            (epson_e01161na_write 0 0x1b0 0xff epson_e01161na_init.1).1).2 = 1 ∧
        ∀ c ∈ (epson_e01161na_write 0 0x1b0 0x3f
            (epson_e01161na_write 0 0x1b0 0xff epson_e01161na_init.1).1).2,
          c.peripheral ≠ Peripheral.serial) := by
  have hT : (epson_e01161na_write 0 0x1b0 0x3f
      (epson_e01161na_write 0 0x1b0 0xff epson_e01161na_init.1).1).2 = [Call.serial_remove 0] := by
    decide
  rw [hT]
  decide

open E01161NA in
/-- C3, amended. After init, 0xFF and then 0x3F written to port 0x1B0: the first write attaches
the UART as COM1 and the parallel port at 0x378; the second write (which clears bits 7:6 and keeps
bits 5:4) makes exactly one call, `serial_remove`, and no parallel-port call.  The transition of the
scenario, one `lpt1_remove` and no serial call, is what writing 0xCF after 0xFF does. -/
theorem epson_e01161na_scenario1 (is386 : Nat) :
    (epson_e01161na_write is386 0x1b0 0xff epson_e01161na_init.1).2 =
      [Call.serial_remove 0, Call.serial_setup 0 0x3f8 4, Call.lpt1_remove, Call.lpt1_init 0x378,
       Call.lpt1_irq 7] ∧
    (epson_e01161na_write is386 0x1b0 0x3f
      (epson_e01161na_write is386 0x1b0 0xff epson_e01161na_init.1).1).2 =
      [Call.serial_remove 0] ∧
    (epson_e01161na_write is386 0x1b0 0xcf
      (epson_e01161na_write is386 0x1b0 0xff epson_e01161na_init.1).1).2 =
      [Call.lpt1_remove] := by
  have hp : (0x1b0 &&& 0xf : Nat) = 0 := by decide
  simp only [write_offset0_cpu is386 0x1b0 _ _ hp]
  decide

open E01161NA in
/-- C4, as stated, fails: on a 386-class configuration with 3 MB and a stored value 0, the byte
read at offset 3 is 0x01, whose bits 2:1 are 00, not 01. -/
theorem epson_e01161na_scenario3_refuted :
    ¬ ((epson_e01161na_read 1 0xc00 0x1b3 { reg := fun _ => 0 } >>> 1) &&& 3 = 1) := by
  decide

open E01161NA in
/-- C4, amended. On a 386-class configuration with `mem_size = 0xC00`, for every stored value of
register 3 a read of offset 3 returns the stored value with bits 2:0 replaced by 001: the bucket
01 sits in bits 1:0, bit 2 is clear, and bits 7:3 are those of the stored value. -/
theorem epson_e01161na_scenario3 (is386 : Nat) (dev : epson_e01161na_t) (h : is386 ≠ 0) :
    epson_e01161na_read is386 0xc00 0x1b3 dev = (dev.reg 3 &&& 0xf8) ||| 1 ∧
    epson_e01161na_read is386 0xc00 0x1b3 dev &&& 3 = 1 ∧
    epson_e01161na_read is386 0xc00 0x1b3 dev &&& 4 = 0 ∧
    epson_e01161na_read is386 0xc00 0x1b3 dev &&& 0xf8 = dev.reg 3 &&& 0xf8 := by
  have hr : epson_e01161na_read is386 0xc00 0x1b3 dev = (dev.reg 3 &&& 0xf8) ||| 1 := by
    have hp : (0x1b3 &&& 0xf : Nat) = 3 := by decide
    simp [epson_e01161na_read, h, hp]
  rw [hr]
  have e1 : (248 &&& 3 : Nat) = 0 := by decide
  have e2 : (248 &&& 4 : Nat) = 0 := by decide
  refine ⟨rfl, ?_, ?_, ?_⟩ <;> simp [or_and_mask, Nat.and_assoc, e1, e2]

open E01161NA in
/-- Witness of C4 amended: stored value 0xFF reads back as 0xF9. -/
theorem epson_e01161na_scenario3_witness :
    epson_e01161na_read 1 0xc00 0x1b3 { reg := fun _ => 0xff } = (0xff &&& 0xf8) ||| 1 :=
  (epson_e01161na_scenario3 1 { reg := fun _ => 0xff } (by decide)).1

open E01161NA in
/-- C5. For every device state, port, byte and CPU generation, a second write of the same byte to
the same port makes no external call and leaves the register file as the first write left it. -/
theorem epson_e01161na_rewrite_same_value (is386 port v : Nat) (dev : epson_e01161na_t) :
    (epson_e01161na_write is386 port v (epson_e01161na_write is386 port v dev).1).2 = [] ∧
    (epson_e01161na_write is386 port v (epson_e01161na_write is386 port v dev).1).1 =
      (epson_e01161na_write is386 port v dev).1 := by
  have h : (epson_e01161na_write is386 port v dev).1.reg (port &&& 0xf) = v := by
    rw [write_fst]; exact setReg_same _ _ _
  refine ⟨write_snd_of_same _ _ _ _ h, ?_⟩
  rw [write_fst is386 port v (epson_e01161na_write is386 port v dev).1, setReg_id _ _ _ h]

/-- A trace that passes the check followed by a trace that passes it from any state. -/
theorem detachBeforeAttach_append (r : Resource) (t1 t2 : List Call)
    (h2 : ∀ b, detachBeforeAttach r b t2 = true) :
    ∀ b, detachBeforeAttach r b t1 = true → detachBeforeAttach r b (t1 ++ t2) = true := by
  induction t1 with
  | nil => intro b _; exact h2 b
  | cons c cs ih =>
    intro b h
    simp only [List.cons_append, detachBeforeAttach] at h ⊢
    split_ifs at h ⊢ with hb hr
    · simp only [Bool.and_eq_true] at h ⊢
      exact ⟨h.1, ih false h.2⟩
    · exact ih true h
    · exact ih b h

/-- Two traces that pass the check from any state, one after the other. -/
theorem detachBeforeAttach_append_any (r : Resource) (t1 t2 : List Call)
    (h1 : ∀ b, detachBeforeAttach r b t1 = true) (h2 : ∀ b, detachBeforeAttach r b t2 = true) :
    ∀ b, detachBeforeAttach r b (t1 ++ t2) = true :=
  fun b => detachBeforeAttach_append r t1 t2 h2 b (h1 b)

/-- The executable check implies the property in words (generalised over the start state). -/
theorem detachBeforeAttach_sound_aux (r : Resource) (t : List Call) :
    ∀ b0, detachBeforeAttach r b0 t = true →
      ∀ pre b post, t = pre ++ b :: post → isBind r b = true →
        (b0 = true ∧ ∀ c ∈ pre, isBind r c = false) ∨
        ∃ p1 rel p2, pre = p1 ++ rel :: p2 ∧ isRelease r rel = true ∧
          ∀ c ∈ p2, isBind r c = false := by
  induction t with
  | nil =>
    intro b0 _ pre b post ht _
    cases pre <;> simp at ht
  | cons c cs ih =>
    intro b0 h pre b post ht hb
    cases pre with
    | nil =>
      simp only [List.nil_append, List.cons.injEq] at ht
      obtain ⟨hc, _⟩ := ht
      subst hc
      simp only [detachBeforeAttach, hb, if_true, Bool.and_eq_true] at h
      exact Or.inl ⟨h.1, by simp⟩
    | cons d pre1 =>
      simp only [List.cons_append, List.cons.injEq] at ht
      obtain ⟨hd, hcs⟩ := ht
      subst hd
      simp only [detachBeforeAttach] at h
      split_ifs at h with hcb hcr
      · simp only [Bool.and_eq_true] at h
        rcases ih false h.2 pre1 b post hcs hb with ⟨hf, _⟩ | ⟨p1, rel, p2, hp, hrel, hno⟩
        · exact absurd hf (by decide)
        · exact Or.inr ⟨c :: p1, rel, p2, by simp [hp], hrel, hno⟩
      · rcases ih true h pre1 b post hcs hb with ⟨_, hno⟩ | ⟨p1, rel, p2, hp, hrel, hno⟩
        · exact Or.inr ⟨[], c, pre1, rfl, hcr, hno⟩
        · exact Or.inr ⟨c :: p1, rel, p2, by simp [hp], hrel, hno⟩
      · rcases ih b0 h pre1 b post hcs hb with ⟨hb0, hno⟩ | ⟨p1, rel, p2, hp, hrel, hno⟩
        · refine Or.inl ⟨hb0, ?_⟩
          intro x hx
          rcases List.mem_cons.1 hx with hx | hx
          · subst hx; simpa using hcb
          · exact hno x hx
        · exact Or.inr ⟨c :: p1, rel, p2, by simp [hp], hrel, hno⟩

/-- The executable check, started with no release seen, implies the property in words. -/
theorem detachBeforeAttach_sound (r : Resource) (t : List Call)
    (h : detachBeforeAttach r false t = true) : EveryBindAfterRelease r t := by
  intro pre b post ht hb
  rcases detachBeforeAttach_sound_aux r t false h pre b post ht hb with ⟨hf, _⟩ | h2
  · exact absurd hf (by decide)
  · exact h2

namespace VL82C107

/-- The IDE branch releases before it binds. -/
theorem csctrl_ide_safe (r : Resource) (val valxor : Nat) :
    ∀ b, detachBeforeAttach r b (csctrl_ide val valxor) = true := by
  intro b
  unfold csctrl_ide
  split_ifs <;> cases r <;> simp [detachBeforeAttach, isBind, isRelease]

/-- The serial branch releases both UARTs before any attach. -/
theorem csctrl_serial_safe (r : Resource) (dev : vl82c107_t) (val valxor : Nat) :
    ∀ b, detachBeforeAttach r b (csctrl_serial dev val valxor) = true := by
  intro b
  unfold csctrl_serial
  rcases serial_handler_cases dev 0 with h0 | ⟨a0, i0, h0⟩ <;>
  rcases serial_handler_cases dev 1 with h1 | ⟨a1, i1, h1⟩ <;>
  rw [h0, h1] <;> split_ifs <;> cases r <;>
  simp [detachBeforeAttach, isBind, isRelease] <;>
  first | tauto | (split_ifs <;> omega)

/-- The parallel-port branch releases before it binds. -/
theorem csctrl_lpt_safe (r : Resource) (dev : vl82c107_t) (val valxor : Nat) :
    ∀ b, detachBeforeAttach r b (csctrl_lpt dev val valxor) = true := by
  intro b
  unfold csctrl_lpt
  obtain ⟨q, h | ⟨p, h⟩⟩ := lpt1_handler_cases dev <;>
  rw [h] <;> split_ifs <;> cases r <;> simp [detachBeforeAttach, isBind, isRelease]

/-- The floppy branch releases before it binds. -/
theorem csctrl_fdc_safe (r : Resource) (dev : vl82c107_t) (val valxor : Nat) :
    ∀ b, detachBeforeAttach r b (csctrl_fdc dev val valxor) = true := by
  intro b
  unfold csctrl_fdc
  split_ifs <;> cases r <;> simp [detachBeforeAttach, isBind, isRelease]

/-- Every port write releases before it binds, whatever came before. -/
theorem write_safe (r : Resource) (port v : Nat) (dev : vl82c107_t) :
    ∀ b, detachBeforeAttach r b (vl82c107_write port v dev).2 = true := by
  intro b
  unfold vl82c107_write
  split
  · rfl
  · split_ifs
    · simp only
      split
      · exact detachBeforeAttach_append_any r _ _
          (detachBeforeAttach_append_any r _ _
            (detachBeforeAttach_append_any r _ _ (csctrl_ide_safe r _ _)
              (csctrl_serial_safe r _ _ _))
            (csctrl_lpt_safe r _ _ _))
          (csctrl_fdc_safe r _ _ _) b
      · rfl
    · rfl
  · rfl

/-- Every sequence of port writes releases before it binds, whatever came before. -/
theorem run_safe (r : Resource) (ws : List PortWrite) :
    ∀ (dev : vl82c107_t) b, detachBeforeAttach r b (run dev ws).2 = true := by
  induction ws with
  | nil => intro dev b; rfl
  | cons w ws ih =>
    intro dev b
    simp only [run]
    exact detachBeforeAttach_append_any r _ _ (write_safe r _ _ _) (fun b => ih _ b) b

/-- The trace of init: the device registrations, the attach pass of reset, the port handler. -/
theorem init_trace (local_flag : Nat) :
    (vl82c107_init local_flag).2 =
      (if local_flag % 256 ≠ 0 then [Call.device_add Device.fdc_at_nsc_device] else []) ++
      [Call.device_add_inst Device.ns16550_device 1, Call.device_add_inst Device.ns16550_device 2,
       Call.device_add Device.ide_isa_device,
       Call.lpt1_remove, Call.lpt1_init 0x3bc, Call.lpt1_irq 7,
       Call.serial_remove 0, Call.serial_remove 1,
       Call.serial_setup 0 0x3e8 4, Call.serial_setup 1 0x2e8 3] ++
      (if local_flag % 256 ≠ 0 then [Call.fdc_reset] else []) ++
      [Call.io_sethandler 0xec 0x0002] := by
  simp [vl82c107_init, vl82c107_reset, lpt1_handler, serial_handler, setReg]

/-- The trace of init passes the check from the start of the trace. -/
theorem init_safe (r : Resource) (local_flag : Nat) :
    detachBeforeAttach r false (vl82c107_init local_flag).2 = true := by
  rw [init_trace]
  split_ifs <;> cases r <;> simp [detachBeforeAttach, isBind, isRelease] <;>
  first | tauto | (split_ifs <;> omega)

end VL82C107

namespace E01161NA

/-- The serial handler makes at most one call, an attach of the UART. -/
theorem epson_serial_handler_cases (dev : epson_e01161na_t) :
    serial_handler dev = [] ∨ ∃ a i, serial_handler dev = [Call.serial_setup 0 a i] := by
  unfold serial_handler
  simp only
  split
  · exact Or.inr ⟨_, _, rfl⟩
  · exact Or.inr ⟨_, _, rfl⟩
  · exact Or.inl rfl

/-- The parallel-port handler attaches at most once and then sets the IRQ. -/
theorem epson_lpt1_handler_cases (dev : epson_e01161na_t) :
    ∃ q, lpt1_handler dev = [Call.lpt1_irq q] ∨
      ∃ p, lpt1_handler dev = [Call.lpt1_init p, Call.lpt1_irq q] := by
  unfold lpt1_handler
  simp only
  split <;> simp

/-- Every port write releases before it binds, whatever came before. -/
theorem epson_write_safe (r : Resource) (is386 port v : Nat) (dev : epson_e01161na_t) :
    ∀ b, detachBeforeAttach r b (epson_e01161na_write is386 port v dev).2 = true := by
  intro b
  unfold epson_e01161na_write
  simp only
  split
  · simp only
    refine detachBeforeAttach_append_any r _ _ ?_ ?_ b
    · intro b
      rcases epson_serial_handler_cases { reg := setReg dev.reg (port &&& 0xf) v } with
        h | ⟨a, i, h⟩ <;>
      rw [h] <;> split_ifs <;> cases r <;>
      simp [detachBeforeAttach, isBind, isRelease]
      tauto
    · intro b
      obtain ⟨q, h | ⟨p, h⟩⟩ := epson_lpt1_handler_cases { reg := setReg dev.reg (port &&& 0xf) v } <;>
      rw [h] <;> split_ifs <;> cases r <;>
      simp [detachBeforeAttach, isBind, isRelease]
  · simp only
    split_ifs <;> cases r <;> simp [detachBeforeAttach, isBind, isRelease]
  · rfl

/-- Every sequence of port writes releases before it binds, whatever came before. -/
theorem epson_run_safe (r : Resource) (is386 : Nat) (ws : List PortWrite) :
    ∀ (dev : epson_e01161na_t) b, detachBeforeAttach r b (run is386 dev ws).2 = true := by
  induction ws with
  | nil => intro dev b; rfl
  | cons w ws ih =>
    intro dev b
    simp only [run]
    exact detachBeforeAttach_append_any r _ _ (epson_write_safe r _ _ _ _) (fun b => ih _ b) b

/-- The trace of init: with all registers zero both ports stay detached. -/
theorem epson_init_trace :
    epson_e01161na_init.2 =
      [Call.device_add_inst Device.ns16550_device 1, Call.lpt1_remove, Call.lpt1_irq 0xff,
       Call.serial_remove 0, Call.io_sethandler 0x01b0 0x0010] := by
  decide

/-- The trace of init passes the check from the start of the trace. -/
theorem epson_init_safe (r : Resource) : detachBeforeAttach r false epson_e01161na_init.2 = true := by
  rw [epson_init_trace]
  cases r <;> simp [detachBeforeAttach, isBind, isRelease]

end E01161NA

/-- C6. Detach-before-attach: for every sequence of port writes applied after init to the
VL82C107 (with or without the floppy function) or to the E01161NA (either CPU generation), and for
every resource, the whole trace of calls, init included, passes the detach-before-attach check:
each bind of the resource is preceded, after the previous bind of it or the start of the trace,
by a release of it. -/
theorem detach_before_attach (r : Resource) (local_flag is386 : Nat) (ws : List PortWrite) :
    (detachBeforeAttach r false
        ((VL82C107.vl82c107_init local_flag).2 ++
          (VL82C107.run (VL82C107.vl82c107_init local_flag).1 ws).2) = true ∧
      EveryBindAfterRelease r
        ((VL82C107.vl82c107_init local_flag).2 ++
          (VL82C107.run (VL82C107.vl82c107_init local_flag).1 ws).2)) ∧
    (detachBeforeAttach r false
        (E01161NA.epson_e01161na_init.2 ++
          (E01161NA.run is386 E01161NA.epson_e01161na_init.1 ws).2) = true ∧
      EveryBindAfterRelease r
        (E01161NA.epson_e01161na_init.2 ++
          (E01161NA.run is386 E01161NA.epson_e01161na_init.1 ws).2)) := by
  have h1 := detachBeforeAttach_append r _ _
    (VL82C107.run_safe r ws (VL82C107.vl82c107_init local_flag).1) false
    (VL82C107.init_safe r local_flag)
  have h2 := detachBeforeAttach_append r _ _
    (E01161NA.epson_run_safe r is386 ws E01161NA.epson_e01161na_init.1) false
    (E01161NA.epson_init_safe r)
  exact ⟨⟨h1, detachBeforeAttach_sound r _ h1⟩, ⟨h2, detachBeforeAttach_sound r _ h2⟩⟩

namespace VL82C107

/-- The IDE branch is silent when bit 0 did not change. -/
theorem csctrl_ide_nil (val valxor : Nat) (h : valxor &&& 0x1 = 0) :
    csctrl_ide val valxor = [] := by
  simp [csctrl_ide, h]

/-- The serial branch is silent when bits 1-3 did not change. -/
theorem csctrl_serial_nil (dev : vl82c107_t) (val valxor : Nat) (h : valxor &&& 0xe = 0) :
    csctrl_serial dev val valxor = [] := by
  simp [csctrl_serial, h]

/-- The parallel-port branch is silent when bits 4-6 did not change. -/
theorem csctrl_lpt_nil (dev : vl82c107_t) (val valxor : Nat) (h : valxor &&& 0x70 = 0) :
    csctrl_lpt dev val valxor = [] := by
  simp [csctrl_lpt, h]

/-- The floppy branch is silent when bit 7 did not change. -/
theorem csctrl_fdc_nil (dev : vl82c107_t) (val valxor : Nat) (h : valxor &&& 0x80 = 0) :
    csctrl_fdc dev val valxor = [] := by
  simp [csctrl_fdc, h]

/-- Flipping one bit of the stored byte gives a changed-bit mask with just that bit. -/
theorem xor_flip (c m : Nat) : (c ^^^ m) ^^^ c = m := by
  rw [Nat.xor_comm c m, Nat.xor_assoc, Nat.xor_self, Nat.xor_zero]

end VL82C107

open VL82C107 in
/-- C7. Bitmask isolation: with index 0x1E, a data-port write of the stored control byte with
bit `k` flipped (`k` in 0..7) makes calls only of the class that owns bit `k`: bit 0 IDE, bits 1-3
serial, bits 4-6 parallel, bit 7 floppy. -/
theorem vl82c107_bit_isolation (dev : vl82c107_t) (k : Nat) (h : dev.index = 0x1e) (hk : k < 8) :
    ∀ c ∈ (vl82c107_write 0xed (dev.regs 0x1e ^^^ (1 <<< k)) dev).2,
      c.peripheral = csctrlOwner k := by
  intro c hc
  rw [write_csctrl dev _ h, xor_flip] at hc
  simp only [List.mem_append] at hc
  interval_cases k <;> rcases hc with ((h1 | h2) | h3) | h4
  all_goals first
    | (rw [csctrl_ide_nil _ _ (by decide)] at h1; cases h1)
    | (rw [csctrl_serial_nil _ _ _ (by decide)] at h2; cases h2)
    | (rw [csctrl_lpt_nil _ _ _ (by decide)] at h3; cases h3)
    | (rw [csctrl_fdc_nil _ _ _ (by decide)] at h4; cases h4)
    | exact csctrl_ide_class _ _ c h1
    | exact csctrl_serial_class _ _ _ c h2
    | exact csctrl_lpt_class _ _ _ c h3
    | exact csctrl_fdc_class _ _ _ c h4

open VL82C107 in
/-- Witness of C7: flipping bit 4 of the reset default 0xCF releases the parallel port, a call of
the class that owns bit 4. -/
theorem vl82c107_bit_isolation_witness :
    Call.lpt1_remove ∈ (vl82c107_write 0xed (0xcf ^^^ (1 <<< 4))
        { index := 0x1e, fdc_function := 1, regs := setReg (fun _ => 0) 0x1e 0xcf }).2 ∧
    Call.lpt1_remove.peripheral = csctrlOwner 4 :=
  ⟨by decide,
   vl82c107_bit_isolation
    { index := 0x1e, fdc_function := 1, regs := setReg (fun _ => 0) 0x1e 0xcf } 4 rfl (by decide)
    Call.lpt1_remove (by decide)⟩

namespace VL82C107

/-- A data-port write with the index in 0x1B..0x1F stores the byte in the selected register and
changes nothing else of the device state. -/
theorem write_data_fst (dev : vl82c107_t) (v : Nat) (h : 0x1b ≤ dev.index ∧ dev.index ≤ 0x1f) :
    (vl82c107_write 0xed v dev).1 = { dev with regs := setReg dev.regs dev.index v } := by
  simp only [vl82c107_write, h, and_self, if_true]
  split <;> rfl

/-- A port write leaves register `j` alone unless it is a data-port write made while the index
selects `j`. -/
theorem write_regs_other (port v j : Nat) (dev : vl82c107_t)
    (h : ¬ (port = 0xed ∧ dev.index = j)) : (vl82c107_write port v dev).1.regs j = dev.regs j := by
  unfold vl82c107_write
  split
  · rfl
  · split_ifs with hr
    · have hj : j ≠ dev.index := fun e => h ⟨rfl, e.symm⟩
      simp only
      split <;> exact setReg_other _ _ _ _ hj
    · rfl
  · rfl

/-- The revision register keeps its value along a sequence of writes that never stores to it. -/
theorem run_revid (ws : List PortWrite) :
    ∀ dev : vl82c107_t, revidUntouched dev ws = true →
      (run dev ws).1.regs 0x1f = dev.regs 0x1f := by
  induction ws with
  | nil => intro dev _; rfl
  | cons w ws ih =>
    intro dev h
    simp only [revidUntouched, Bool.and_eq_true, Bool.not_eq_true', Bool.and_eq_false_imp,
      beq_iff_eq] at h
    simp only [run]
    rw [ih _ h.2]
    apply write_regs_other
    intro hc
    have := h.1 hc.1
    simp [hc.2] at this

end VL82C107

open VL82C107 in
/-- C8. With the index outside 0x1B..0x1F, a read of the data port returns 0xFF, and a write of
any byte to the data port makes no call and leaves index and registers as they were. -/
theorem vl82c107_out_of_range (dev : vl82c107_t) (v : Nat)
    (h : ¬ (0x1b ≤ dev.index ∧ dev.index ≤ 0x1f)) :
    vl82c107_read 0xed dev = 0xff ∧ vl82c107_write 0xed v dev = (dev, []) := by
  constructor
  · simp only [vl82c107_read, h, if_false]
  · simp only [vl82c107_write, h, if_false]

open VL82C107 in
/-- Witness of C8: just after init the index is 0, out of range. -/
theorem vl82c107_out_of_range_witness :
    ¬ (0x1b ≤ (vl82c107_init 1).1.index ∧ (vl82c107_init 1).1.index ≤ 0x1f) ∧
    vl82c107_read 0xed (vl82c107_init 1).1 = 0xff ∧
    vl82c107_write 0xed 0x55 (vl82c107_init 1).1 = ((vl82c107_init 1).1, []) :=
  ⟨by decide, vl82c107_out_of_range (vl82c107_init 1).1 0x55 (by decide)⟩

open VL82C107 in
/-- C9, as stated, fails: after init, selecting index 0x1F and writing 0x00 to the data port,
the data port reads 0x00 with the index still on 0x1F. -/
theorem vl82c107_revid_refuted :
    (run (vl82c107_init 0).1 [⟨0xec, 0x1f⟩, ⟨0xed, 0x00⟩]).1.index = 0x1f ∧
    vl82c107_read 0xed (run (vl82c107_init 0).1 [⟨0xec, 0x1f⟩, ⟨0xed, 0x00⟩]).1 = 0x00 ∧
    ¬ (vl82c107_read 0xed (run (vl82c107_init 0).1 [⟨0xec, 0x1f⟩, ⟨0xed, 0x00⟩]).1 = 0x70) := by
  decide

open VL82C107 in
/-- C9, amended. In every state reached from init by a sequence of port writes none of which is
a data-port write made while the index selects 0x1F, register 0x1F holds the revision ID 0x70:
selecting index 0x1F and reading the data port returns 0x70, and so does a read of the data port
whenever the index already is 0x1F. -/
theorem vl82c107_revid (local_flag : Nat) (ws : List PortWrite)
    (h : revidUntouched (vl82c107_init local_flag).1 ws = true) :
    (run (vl82c107_init local_flag).1 ws).1.regs 0x1f = 0x70 ∧
    vl82c107_read 0xed
      (vl82c107_write 0xec 0x1f (run (vl82c107_init local_flag).1 ws).1).1 = 0x70 ∧
    ((run (vl82c107_init local_flag).1 ws).1.index = 0x1f →
      vl82c107_read 0xed (run (vl82c107_init local_flag).1 ws).1 = 0x70) := by
  have hr : (run (vl82c107_init local_flag).1 ws).1.regs 0x1f = 0x70 := by
    rw [run_revid ws _ h]
    simp [vl82c107_init, vl82c107_reset, setReg]
  refine ⟨hr, ?_, ?_⟩
  · simp [vl82c107_read, vl82c107_write, hr]
  · intro hi
    simp [vl82c107_read, hi, hr]

open VL82C107 in
/-- Witness of C9 amended: the master control byte is rewritten, then the revision is read. -/
theorem vl82c107_revid_witness :
    revidUntouched (vl82c107_init 1).1 [⟨0xec, 0x1e⟩, ⟨0xed, 0x01⟩] = true ∧
    vl82c107_read 0xed
      (vl82c107_write 0xec 0x1f
        (run (vl82c107_init 1).1 [⟨0xec, 0x1e⟩, ⟨0xed, 0x01⟩]).1).1 = 0x70 :=
  ⟨by decide, (vl82c107_revid 1 [⟨0xec, 0x1e⟩, ⟨0xed, 0x01⟩] (by decide)).2.1⟩

open VL82C107 in
/-- C10. Indexed-access round trip: for an index `i` in 0x1B..0x1F, writing `i` to the index port
and then `v` to the data port, the data port reads `v` and the index port reads `i`; the index
write changes no register (nor the floppy flag) and makes no call; the data write changes no
register other than `regs[i]` and leaves the index (and the floppy flag) unchanged. -/
theorem vl82c107_index_roundtrip (dev : vl82c107_t) (i v : Nat) (h : 0x1b ≤ i ∧ i ≤ 0x1f) :
    vl82c107_read 0xed (vl82c107_write 0xed v (vl82c107_write 0xec i dev).1).1 = v ∧
    vl82c107_read 0xec (vl82c107_write 0xed v (vl82c107_write 0xec i dev).1).1 = i ∧
    vl82c107_write 0xec i dev = ({ dev with index := i }, []) ∧
    (∀ j, j ≠ i →
      (vl82c107_write 0xed v (vl82c107_write 0xec i dev).1).1.regs j = dev.regs j) ∧
    (vl82c107_write 0xed v (vl82c107_write 0xec i dev).1).1.regs i = v ∧
    (vl82c107_write 0xed v (vl82c107_write 0xec i dev).1).1.index = i ∧
    (vl82c107_write 0xed v (vl82c107_write 0xec i dev).1).1.fdc_function = dev.fdc_function := by
  have h0 : vl82c107_write 0xec i dev = ({ dev with index := i }, []) := rfl
  have h1 : (vl82c107_write 0xed v (vl82c107_write 0xec i dev).1).1 =
      { index := i, fdc_function := dev.fdc_function, regs := setReg dev.regs i v } := by
    rw [h0]
    exact write_data_fst { dev with index := i } v h
  rw [h1]
  refine ⟨?_, rfl, h0, ?_, setReg_same _ _ _, rfl, rfl⟩
  · simp [vl82c107_read, h, setReg_same]
  · intro j hj
    exact setReg_other _ _ _ _ hj

open VL82C107 in
/-- Witness of C10: index 0x1C, byte 0xA5, on the device just after init. -/
theorem vl82c107_index_roundtrip_witness :
    (0x1b ≤ 0x1c ∧ 0x1c ≤ 0x1f) ∧
    vl82c107_read 0xed
      (vl82c107_write 0xed 0xa5 (vl82c107_write 0xec 0x1c (vl82c107_init 0).1).1).1 = 0xa5 :=
  ⟨by decide, (vl82c107_index_roundtrip (vl82c107_init 0).1 0x1c 0xa5 (by decide)).1⟩

/-- A single-bit mask extracts that bit in place. -/
theorem and_two_pow_bit (x k : Nat) : x &&& 2 ^ k = 2 ^ k * (x / 2 ^ k % 2) := by
  apply Nat.eq_of_testBit_eq
  intro i
  rw [Nat.testBit_and, Nat.testBit_two_pow]
  rcases Nat.mod_two_eq_zero_or_one (x / 2 ^ k) with h | h
  · rw [h, Nat.mul_zero, Nat.zero_testBit]
    by_cases hki : k = i
    · subst hki
      simp [Nat.testBit_to_div_mod, h]
    · simp [hki]
  · rw [h, Nat.mul_one, Nat.testBit_two_pow]
    by_cases hki : k = i
    · subst hki
      simp [Nat.testBit_to_div_mod, h]
    · simp [hki]

/-- A two-bit field read with a shift and a mask, as quotient and remainder. -/
theorem shift_and_three (x n : Nat) : (x >>> n) &&& 3 = x / 2 ^ n % 4 := by
  rw [Nat.shiftRight_eq_div_pow]
  exact Nat.and_pow_two_sub_one_eq_mod _ 2

/-- A bit of the changed-bit mask under a mask `m` is set exactly when the two bytes differ
under `m`. -/
theorem xor_and_ne_zero (v c m : Nat) : (v ^^^ c) &&& m ≠ 0 ↔ v &&& m ≠ c &&& m := by
  rw [Nat.and_xor_distrib_right, Ne, Nat.xor_eq_zero]

namespace VL82C107

/-- What `lpt1_handler` does, by the two-bit field it decodes. -/
theorem lpt1_handler_decode (dev : vl82c107_t) (v : Nat) (hv : dev.regs dev.index = v) :
    lpt1_handler dev =
      if (v >>> 4) &&& 3 = 0 then [Call.lpt1_init 0x3bc, Call.lpt1_irq 7]
      else if (v >>> 4) &&& 3 = 1 then [Call.lpt1_init 0x378, Call.lpt1_irq 7]
      else if (v >>> 4) &&& 3 = 2 then [Call.lpt1_init 0x278, Call.lpt1_irq 7]
      else [Call.lpt1_irq 0xff] := by
  have hlt : (v >>> 4) &&& 3 < 4 := by rw [shift_and_three]; omega
  unfold lpt1_handler
  rw [hv]
  simp only
  generalize (v >>> 4) &&& 3 = t at hlt
  interval_cases t <;> simp

/-- The parallel-port branch of the write, by the bits of the byte written. -/
theorem csctrl_lpt_decode (dev : vl82c107_t) (v valxor : Nat) (hv : dev.regs dev.index = v) :
    csctrl_lpt dev v valxor =
      if valxor &&& 0x70 ≠ 0 then
        Call.lpt1_remove ::
          (if v &&& 0x40 ≠ 0 ∧ (v >>> 4) &&& 3 ≠ 3 then
            [Call.lpt1_init
              (if (v >>> 4) &&& 3 = 0 then 0x3bc else if (v >>> 4) &&& 3 = 1 then 0x378
               else 0x278),
             Call.lpt1_irq 7]
          else [])
      else [] := by
  have h4 : v &&& 0x10 = 16 * (v / 16 % 2) := and_two_pow_bit v 4
  have h5 : v &&& 0x20 = 32 * (v / 32 % 2) := and_two_pow_bit v 5
  have hs : (v >>> 4) &&& 3 = v / 16 % 4 := shift_and_three v 4
  have hc : (v &&& 0x40 ≠ 0 ∧ ¬ (v &&& 0x20 ≠ 0 ∧ v &&& 0x10 ≠ 0)) ↔
      (v &&& 0x40 ≠ 0 ∧ (v >>> 4) &&& 3 ≠ 3) := by
    rw [h4, h5, hs]; omega
  unfold csctrl_lpt
  rw [lpt1_handler_decode dev v hv]
  simp only [hc, List.singleton_append]
  have hlt : (v >>> 4) &&& 3 < 4 := by rw [hs]; omega
  generalize (v >>> 4) &&& 3 = t at hlt
  interval_cases t <;> simp

end VL82C107

open VL82C107 in
/-- C11. For a data-port write of `v` with index 0x1E, the parallel-port calls of the write are:
none when `(old ^ v) & 0x70` is zero; otherwise `lpt1_remove`, followed, iff bit 6 of `v` is set
and bits 5:4 of `v` are not 11, by `lpt1_init` at 0x3BC, 0x378 or 0x278 for bits 5:4 = 00, 01 or
10 and `lpt1_irq(7)`.  For the disabled encodings nothing follows `lpt1_remove`. -/
theorem vl82c107_lpt_decode (dev : vl82c107_t) (v : Nat) (h : dev.index = 0x1e) :
    (vl82c107_write 0xed v dev).2.filter (fun c => decide (c.peripheral = Peripheral.parallel)) =
      if (dev.regs 0x1e ^^^ v) &&& 0x70 ≠ 0 then
        Call.lpt1_remove ::
          (if v &&& 0x40 ≠ 0 ∧ (v >>> 4) &&& 3 ≠ 3 then
            [Call.lpt1_init
              (if (v >>> 4) &&& 3 = 0 then 0x3bc else if (v >>> 4) &&& 3 = 1 then 0x378
               else 0x278),
             Call.lpt1_irq 7]
          else [])
      else [] := by
  rw [write_csctrl dev v h]
  simp only [List.filter_append]
  rw [filter_class_other _ _ _ (csctrl_ide_class _ _) (by decide),
    filter_class_other _ _ _ (csctrl_serial_class _ _ _) (by decide),
    filter_class_self _ _ (csctrl_lpt_class _ _ _),
    filter_class_other _ _ _ (csctrl_fdc_class _ _ _) (by decide)]
  simp only [List.nil_append, List.append_nil]
  rw [csctrl_lpt_decode _ v _ (by simp only [h, setReg_same]), Nat.xor_comm v]

open VL82C107 in
/-- Witness of C11: from the reset default 0xCF, writing 0xEF (bits 5:4 = 10) moves the
parallel port to 0x278. -/
theorem vl82c107_lpt_decode_witness :
    (vl82c107_write 0xed 0xef
        { index := 0x1e, fdc_function := 1, regs := setReg (fun _ => 0) 0x1e 0xcf }).2.filter
      (fun c => decide (c.peripheral = Peripheral.parallel)) =
      [Call.lpt1_remove, Call.lpt1_init 0x278, Call.lpt1_irq 7] :=
  (vl82c107_lpt_decode
    { index := 0x1e, fdc_function := 1, regs := setReg (fun _ => 0) 0x1e 0xcf } 0xef rfl).trans
    (by decide)

open VL82C107 in
/-- C12, the code at the failing input. From the reset default 0xCF (both serial ports enabled,
COM1/COM2 addressing) the byte 0xCD clears bit 1 and keeps bits 2 and 3 set: both UARTs are
removed and neither is attached again, where the claim has A at 0x3E8 IRQ 4 and B at 0x2E8
IRQ 3. -/
theorem vl82c107_serial_decode_divergence :
    (vl82c107_write 0xec 0x1e (vl82c107_init 1).1).1.regs 0x1e = 0xcf ∧
    (vl82c107_write 0xed 0xcd (vl82c107_write 0xec 0x1e (vl82c107_init 1).1).1).2 =
      [Call.serial_remove 0, Call.serial_remove 1] := by
  decide

namespace VL82C107

/-- No port write changes the floppy capability flag. -/
theorem write_fdc_function (port v : Nat) (dev : vl82c107_t) :
    (vl82c107_write port v dev).1.fdc_function = dev.fdc_function := by
  unfold vl82c107_write
  split
  · rfl
  · split_ifs
    · simp only
      split <;> rfl
    · rfl
  · rfl

/-- Without the floppy capability flag a port write makes no floppy call. -/
theorem write_no_floppy (port v : Nat) (dev : vl82c107_t) (hf : dev.fdc_function = 0) :
    (vl82c107_write port v dev).2.filter (fun c => decide (c.peripheral = Peripheral.floppy)) =
      [] := by
  unfold vl82c107_write
  split
  · rfl
  · split_ifs
    · simp only
      split
      · simp only [List.filter_append]
        rw [filter_class_other _ _ _ (csctrl_ide_class _ _) (by decide),
          filter_class_other _ _ _ (csctrl_serial_class _ _ _) (by decide),
          filter_class_other _ _ _ (csctrl_lpt_class _ _ _) (by decide)]
        simp [csctrl_fdc, hf]
      · rfl
    · rfl
  · rfl

/-- Without the floppy capability flag no sequence of port writes makes a floppy call. -/
theorem run_no_floppy (ws : List PortWrite) :
    ∀ dev : vl82c107_t, dev.fdc_function = 0 →
      (run dev ws).2.filter (fun c => decide (c.peripheral = Peripheral.floppy)) = [] := by
  induction ws with
  | nil => intro dev _; rfl
  | cons w ws ih =>
    intro dev hf
    simp only [run, List.filter_append]
    rw [write_no_floppy _ _ _ hf, ih _ ((write_fdc_function _ _ _).trans hf)]
    rfl

end VL82C107

namespace VL82C107

/-- No sequence of port writes changes the floppy capability flag. -/
theorem run_fdc_function (ws : List PortWrite) :
    ∀ dev : vl82c107_t, (run dev ws).1.fdc_function = dev.fdc_function := by
  induction ws with
  | nil => intro dev; rfl
  | cons w ws ih =>
    intro dev
    simp only [run]
    rw [ih, write_fdc_function]

/-- The floppy calls of a data-port write with the index on the master control byte. -/
theorem write_floppy_calls (dev : vl82c107_t) (v : Nat) (h : dev.index = 0x1e) :
    (vl82c107_write 0xed v dev).2.filter (fun c => decide (c.peripheral = Peripheral.floppy)) =
      (if v &&& 0x80 ≠ dev.regs 0x1e &&& 0x80 ∧ dev.fdc_function ≠ 0 then
        Call.fdc_remove :: (if v &&& 0x80 ≠ 0 then [Call.fdc_set_base 0x3f0] else [])
      else []) := by
  rw [write_csctrl dev v h]
  simp only [List.filter_append]
  rw [filter_class_other _ _ _ (csctrl_ide_class _ _) (by decide),
    filter_class_other _ _ _ (csctrl_serial_class _ _ _) (by decide),
    filter_class_other _ _ _ (csctrl_lpt_class _ _ _) (by decide),
    filter_class_self _ _ (csctrl_fdc_class _ _ _)]
  simp only [List.nil_append]
  unfold csctrl_fdc
  simp only [xor_and_ne_zero, List.singleton_append]

end VL82C107

open VL82C107 in
/-- C13. For a data-port write of `v` with index 0x1E, the floppy calls of the write are: none
unless bit 7 of `v` differs from the stored bit 7 and the floppy capability flag is set; otherwise
`fdc_remove`, followed by `fdc_set_base(0x3F0)` iff bit 7 of `v` is 1.  The flag of a device is the
one its creation recorded: in every state reached from `vl82c107_init` with `info->local` equal to
`local_flag` the stored flag is `local_flag` as a `uint8_t`, so on such a state the floppy calls
are gated by `local_flag`.  On an instance created without the flag, no sequence of writes makes
a floppy call. -/
theorem vl82c107_fdc_gating (local_flag : Nat) (dev : vl82c107_t) (v : Nat)
    (ws : List PortWrite) (h : dev.index = 0x1e) :
    (vl82c107_write 0xed v dev).2.filter (fun c => decide (c.peripheral = Peripheral.floppy)) =
      (if v &&& 0x80 ≠ dev.regs 0x1e &&& 0x80 ∧ dev.fdc_function ≠ 0 then
        Call.fdc_remove :: (if v &&& 0x80 ≠ 0 then [Call.fdc_set_base 0x3f0] else [])
      else []) ∧
    (run (vl82c107_init 0).1 ws).2.filter (fun c => decide (c.peripheral = Peripheral.floppy)) =
      [] ∧
    (vl82c107_init local_flag).1.fdc_function = local_flag % 256 ∧
    (run (vl82c107_init local_flag).1 ws).1.fdc_function = local_flag % 256 ∧
    ((run (vl82c107_init local_flag).1 ws).1.index = 0x1e →
      (vl82c107_write 0xed v (run (vl82c107_init local_flag).1 ws).1).2.filter
          (fun c => decide (c.peripheral = Peripheral.floppy)) =
        (if v &&& 0x80 ≠ (run (vl82c107_init local_flag).1 ws).1.regs 0x1e &&& 0x80 ∧
            local_flag % 256 ≠ 0 then
          Call.fdc_remove :: (if v &&& 0x80 ≠ 0 then [Call.fdc_set_base 0x3f0] else [])
        else [])) ∧
    (local_flag % 256 = 0 →
      (run (vl82c107_init local_flag).1 ws).2.filter
          (fun c => decide (c.peripheral = Peripheral.floppy)) = []) := by
  have hf : (run (vl82c107_init local_flag).1 ws).1.fdc_function = local_flag % 256 :=
    run_fdc_function ws _
  refine ⟨write_floppy_calls dev v h, run_no_floppy ws _ rfl, rfl, hf, ?_, ?_⟩
  · intro hi
    rw [write_floppy_calls _ v hi, hf]
  · intro h0
    exact run_no_floppy ws _ h0

open VL82C107 in
/-- Witness of C13: on the instance created with `info->local = 1`, after selecting index 0x1E,
clearing bit 7 of the reset default 0xCF removes the floppy controller and does not set its base
again; on the instance created with `info->local = 0` the same writes make no floppy call. -/
theorem vl82c107_fdc_gating_witness :
    (run (vl82c107_init 1).1 [⟨0xec, 0x1e⟩]).1.index = 0x1e ∧
    (vl82c107_write 0xed 0x4f (run (vl82c107_init 1).1 [⟨0xec, 0x1e⟩]).1).2.filter
      (fun c => decide (c.peripheral = Peripheral.floppy)) = [Call.fdc_remove] ∧
    (run (vl82c107_init 0).1 [⟨0xec, 0x1e⟩, ⟨0xed, 0x4f⟩]).2.filter
      (fun c => decide (c.peripheral = Peripheral.floppy)) = [] :=
  ⟨by decide,
   ((vl82c107_fdc_gating 1 (run (vl82c107_init 1).1 [⟨0xec, 0x1e⟩]).1 0x4f [⟨0xec, 0x1e⟩]
      (by decide)).2.2.2.2.1 (by decide)).trans (by decide),
   (vl82c107_fdc_gating 0 (run (vl82c107_init 0).1 [⟨0xec, 0x1e⟩]).1 0x4f
      [⟨0xec, 0x1e⟩, ⟨0xed, 0x4f⟩] (by decide)).2.2.2.2.2 (by decide)⟩

namespace E01161NA

/-- The calls of a write to offset 0: the serial branch, then the parallel-port branch. -/
theorem write_offset0_calls (is386 port v : Nat) (dev : epson_e01161na_t)
    (hp : port &&& 0xf = 0) :
    (epson_e01161na_write is386 port v dev).2 =
      (if (v ^^^ dev.reg 0) &&& 0xc0 ≠ 0 then
        [Call.serial_remove 0] ++
          (if v &&& 0x80 ≠ 0 then serial_handler { reg := setReg dev.reg 0 v } else [])
      else []) ++
      (if (v ^^^ dev.reg 0) &&& 0x30 ≠ 0 then
        [Call.lpt1_remove] ++
          (if v &&& 0x20 ≠ 0 then lpt1_handler { reg := setReg dev.reg 0 v } else [])
      else []) := by
  simp [epson_e01161na_write, hp]

/-- Bit 5 set means the two-bit field 5:4 is 10 or 11. -/
theorem bit5_field (v : Nat) :
    v &&& 0x20 ≠ 0 ↔ ((v >>> 4) &&& 3 = 2 ∨ (v >>> 4) &&& 3 = 3) := by
  have h5 : v &&& 0x20 = 32 * (v / 32 % 2) := and_two_pow_bit v 5
  have hs : (v >>> 4) &&& 3 = v / 16 % 4 := shift_and_three v 4
  rw [h5, hs]; omega

/-- Bit 7 set means the two-bit field 7:6 is 10 or 11. -/
theorem bit7_field (v : Nat) :
    v &&& 0x80 ≠ 0 ↔ ((v >>> 6) &&& 3 = 2 ∨ (v >>> 6) &&& 3 = 3) := by
  have h7 : v &&& 0x80 = 128 * (v / 128 % 2) := and_two_pow_bit v 7
  have hs : (v >>> 6) &&& 3 = v / 64 % 4 := shift_and_three v 6
  rw [h7, hs]; omega

/-- The parallel-port handler as the write path reaches it: only with bit 5 set. -/
theorem lpt_attach_decode (dev : epson_e01161na_t) (v : Nat) (hv : dev.reg 0 = v) :
    (if v &&& 0x20 ≠ 0 then lpt1_handler dev else []) =
      if v &&& 0x20 ≠ 0 then
        [Call.lpt1_init (if (v >>> 4) &&& 3 = 3 then 0x378 else 0x278), Call.lpt1_irq 7]
      else [] := by
  by_cases hb : v &&& 0x20 ≠ 0
  · rw [if_pos hb, if_pos hb]
    unfold lpt1_handler
    rw [hv]
    rcases (bit5_field v).1 hb with h | h <;> simp [h]
  · rw [if_neg hb, if_neg hb]

/-- The serial handler as the write path reaches it: only with bit 7 set. -/
theorem serial_attach_decode (dev : epson_e01161na_t) (v : Nat) (hv : dev.reg 0 = v) :
    (if v &&& 0x80 ≠ 0 then serial_handler dev else []) =
      if v &&& 0x80 ≠ 0 then
        [if (v >>> 6) &&& 3 = 3 then Call.serial_setup 0 0x3f8 4
         else Call.serial_setup 0 0x2f8 3]
      else [] := by
  by_cases hb : v &&& 0x80 ≠ 0
  · rw [if_pos hb, if_pos hb]
    unfold serial_handler
    rw [hv]
    rcases (bit7_field v).1 hb with h | h <;> simp [h]
  · rw [if_neg hb, if_neg hb]

/-- The calls of a write to offset 0, by the bits of the byte written. -/
theorem write_offset0_decode (is386 port v : Nat) (dev : epson_e01161na_t)
    (hp : port &&& 0xf = 0) :
    (epson_e01161na_write is386 port v dev).2 =
      (if (dev.reg 0 ^^^ v) &&& 0xc0 ≠ 0 then
        Call.serial_remove 0 ::
          (if v &&& 0x80 ≠ 0 then
            [if (v >>> 6) &&& 3 = 3 then Call.serial_setup 0 0x3f8 4
             else Call.serial_setup 0 0x2f8 3]
          else [])
      else []) ++
      (if (dev.reg 0 ^^^ v) &&& 0x30 ≠ 0 then
        Call.lpt1_remove ::
          (if v &&& 0x20 ≠ 0 then
            [Call.lpt1_init (if (v >>> 4) &&& 3 = 3 then 0x378 else 0x278), Call.lpt1_irq 7]
          else [])
      else []) := by
  rw [write_offset0_calls is386 port v dev hp,
    serial_attach_decode { reg := setReg dev.reg 0 v } v (setReg_same dev.reg 0 v),
    lpt_attach_decode { reg := setReg dev.reg 0 v } v (setReg_same dev.reg 0 v),
    Nat.xor_comm v]
  rfl

end E01161NA

open E01161NA in
/-- C14. For a write of `v` to offset 0 of the gate array, the parallel-port calls of the write
are: none when `(old ^ v) & 0x30` is zero; otherwise `lpt1_remove`, followed, iff bit 5 of `v` is
set, by `lpt1_init` at 0x378 when bits 5:4 = 11 and at 0x278 when bits 5:4 = 10, and
`lpt1_irq(7)`.  Bit 5 is set exactly for the encodings 10 and 11, so for 00 and 01 nothing
follows `lpt1_remove`. -/
theorem epson_e01161na_lpt_decode (is386 port v : Nat) (dev : epson_e01161na_t)
    (hp : port &&& 0xf = 0) :
    (epson_e01161na_write is386 port v dev).2.filter
        (fun c => decide (c.peripheral = Peripheral.parallel)) =
      (if (dev.reg 0 ^^^ v) &&& 0x30 ≠ 0 then
        Call.lpt1_remove ::
          (if v &&& 0x20 ≠ 0 then
            [Call.lpt1_init (if (v >>> 4) &&& 3 = 3 then 0x378 else 0x278), Call.lpt1_irq 7]
          else [])
      else []) ∧
    (v &&& 0x20 ≠ 0 ↔ ((v >>> 4) &&& 3 = 2 ∨ (v >>> 4) &&& 3 = 3)) := by
  refine ⟨?_, bit5_field v⟩
  rw [write_offset0_decode is386 port v dev hp, List.filter_append]
  split_ifs <;> simp [Call.peripheral]

open E01161NA in
/-- Witness of C14: after init, 0x20 written to port 0x1B0 attaches the parallel port at 0x278. -/
theorem epson_e01161na_lpt_decode_witness :
    (epson_e01161na_write 0 0x1b0 0x20 epson_e01161na_init.1).2.filter
        (fun c => decide (c.peripheral = Peripheral.parallel)) =
      [Call.lpt1_remove, Call.lpt1_init 0x278, Call.lpt1_irq 7] :=
  ((epson_e01161na_lpt_decode 0 0x1b0 0x20 epson_e01161na_init.1 (by decide)).1).trans
    (by decide)

open E01161NA in
/-- C15. For a write of `v` to offset 0 of the gate array, the serial calls of the write are:
none when `(old ^ v) & 0xC0` is zero; otherwise `serial_remove`, followed, iff bit 7 of `v` is
set, by `serial_setup` as COM1 (0x3F8, IRQ 4) when bits 7:6 = 11 and as COM2 (0x2F8, IRQ 3) when
bits 7:6 = 10.  Bit 7 is set exactly for the encodings 10 and 11.  A write that changes no bit
outside bits 4-5 makes no serial call. -/
theorem epson_e01161na_serial_decode (is386 port v : Nat) (dev : epson_e01161na_t)
    (hp : port &&& 0xf = 0) :
    (epson_e01161na_write is386 port v dev).2.filter
        (fun c => decide (c.peripheral = Peripheral.serial)) =
      (if (dev.reg 0 ^^^ v) &&& 0xc0 ≠ 0 then
        Call.serial_remove 0 ::
          (if v &&& 0x80 ≠ 0 then
            [if (v >>> 6) &&& 3 = 3 then Call.serial_setup 0 0x3f8 4
             else Call.serial_setup 0 0x2f8 3]
          else [])
      else []) ∧
    (v &&& 0x80 ≠ 0 ↔ ((v >>> 6) &&& 3 = 2 ∨ (v >>> 6) &&& 3 = 3)) ∧
    ((dev.reg 0 ^^^ v) &&& 0xcf = 0 →
      (epson_e01161na_write is386 port v dev).2.filter
        (fun c => decide (c.peripheral = Peripheral.serial)) = []) := by
  have h1 : (epson_e01161na_write is386 port v dev).2.filter
        (fun c => decide (c.peripheral = Peripheral.serial)) =
      (if (dev.reg 0 ^^^ v) &&& 0xc0 ≠ 0 then
        Call.serial_remove 0 ::
          (if v &&& 0x80 ≠ 0 then
            [if (v >>> 6) &&& 3 = 3 then Call.serial_setup 0 0x3f8 4
             else Call.serial_setup 0 0x2f8 3]
          else [])
      else []) := by
    rw [write_offset0_decode is386 port v dev hp, List.filter_append]
    split_ifs <;> simp [Call.peripheral]
  refine ⟨h1, bit7_field v, ?_⟩
  intro hx
  have hz : (dev.reg 0 ^^^ v) &&& 0xc0 = 0 := by
    have e : (0xcf &&& 0xc0 : Nat) = 0xc0 := by decide
    rw [← e, ← Nat.and_assoc, hx, Nat.zero_and]
  rw [h1, hz]
  simp

open E01161NA in
/-- Witness of C15: with 0xFF stored, 0xCF (only bits 4-5 cleared) makes no serial call, and
after init 0x80 attaches the UART as COM2. -/
theorem epson_e01161na_serial_decode_witness :
    (epson_e01161na_write 0 0x1b0 0xcf { reg := fun _ => 0xff }).2.filter
        (fun c => decide (c.peripheral = Peripheral.serial)) = [] ∧
    (epson_e01161na_write 0 0x1b0 0x80 epson_e01161na_init.1).2.filter
        (fun c => decide (c.peripheral = Peripheral.serial)) =
      [Call.serial_remove 0, Call.serial_setup 0 0x2f8 3] :=
  ⟨(epson_e01161na_serial_decode 0 0x1b0 0xcf { reg := fun _ => 0xff } (by decide)).2.2
      (by decide),
   ((epson_e01161na_serial_decode 0 0x1b0 0x80 epson_e01161na_init.1 (by decide)).1).trans
      (by decide)⟩

namespace E01161NA

/-- A write to an offset other than 0 and 3 makes no call. -/
theorem write_other_calls (is386 port v : Nat) (dev : epson_e01161na_t)
    (h0 : port &&& 0xf ≠ 0) (h3 : port &&& 0xf ≠ 3) :
    (epson_e01161na_write is386 port v dev).2 = [] := by
  unfold epson_e01161na_write
  simp only

/-- The calls of a write to offset 3: at most one remap request. -/
theorem write_offset3_calls (is386 port v : Nat) (dev : epson_e01161na_t)
    (hp : port &&& 0xf = 3) :
    (epson_e01161na_write is386 port v dev).2 =
      if (v ^^^ dev.reg 3) &&& 0x30 ≠ 0 ∧ is386 = 0 then
        if v &&& 0x10 ≠ 0 ∧ ¬ (v &&& 0x20 ≠ 0) then [Call.mem_remap_top 384]
        else [Call.mem_remap_top 0]
      else [] := by
  simp [epson_e01161na_write, hp]

/-- The remap requests of one write. -/
theorem write_mem_remap (is386 port v : Nat) (dev : epson_e01161na_t) :
    (epson_e01161na_write is386 port v dev).2.filter isMemRemap =
      if port &&& 0xf = 3 ∧ (dev.reg (port &&& 0xf) ^^^ v) &&& 0x30 ≠ 0 ∧ is386 = 0 then
        [Call.mem_remap_top (if v &&& 0x10 ≠ 0 ∧ v &&& 0x20 = 0 then 384 else 0)]
      else [] := by
  by_cases h0 : port &&& 0xf = 0
  · rw [write_offset0_decode is386 port v dev h0, List.filter_append, h0]
    split_ifs <;> simp_all [isMemRemap]
  · by_cases h3 : port &&& 0xf = 3
    · rw [write_offset3_calls is386 port v dev h3, h3, Nat.xor_comm v]
      split_ifs <;> simp_all [isMemRemap]
    · rw [write_other_calls is386 port v dev h0 h3]
      simp [h3]

/-- On a 386-class configuration no sequence of writes requests a remap. -/
theorem run_no_mem_remap (is386 : Nat) (h : is386 ≠ 0) (ws : List PortWrite) :
    ∀ dev : epson_e01161na_t, (run is386 dev ws).2.filter isMemRemap = [] := by
  induction ws with
  | nil => intro dev; rfl
  | cons w ws ih =>
    intro dev
    simp only [run, List.filter_append]
    rw [write_mem_remap, ih]
    simp [h]

end E01161NA

open E01161NA in
/-- C16. For every write of `v` to any port of the gate array, `mem_remap_top` is called iff the
offset is 3, `(old ^ v) & 0x30` is non-zero and the CPU is not 386-class; it is then called once,
with boundary 384 if bit 4 of `v` is set and bit 5 is clear, and with boundary 0 otherwise.  On a
386-class configuration no sequence of writes calls `mem_remap_top`. -/
theorem epson_e01161na_mem_remap (is386 port v : Nat) (dev : epson_e01161na_t)
    (ws : List PortWrite) :
    (epson_e01161na_write is386 port v dev).2.filter isMemRemap =
      (if port &&& 0xf = 3 ∧ (dev.reg (port &&& 0xf) ^^^ v) &&& 0x30 ≠ 0 ∧ is386 = 0 then
        [Call.mem_remap_top (if v &&& 0x10 ≠ 0 ∧ v &&& 0x20 = 0 then 384 else 0)]
      else []) ∧
    (is386 ≠ 0 → (run is386 dev ws).2.filter isMemRemap = []) :=
  ⟨write_mem_remap is386 port v dev, fun h => run_no_mem_remap is386 h ws dev⟩

open E01161NA in
/-- Witness of C16: on a 386-class configuration, writes that flip bits 4 and 5 of register 3
request no remap; on a 286-class one the first of them requests boundary 384. -/
theorem epson_e01161na_mem_remap_witness :
    (run 1 epson_e01161na_init.1 [⟨0x1b3, 0x10⟩, ⟨0x1b3, 0x20⟩]).2.filter isMemRemap = [] ∧
    (epson_e01161na_write 0 0x1b3 0x10 epson_e01161na_init.1).2.filter isMemRemap =
      [Call.mem_remap_top 384] :=
  ⟨(epson_e01161na_mem_remap 1 0x1b3 0x10 epson_e01161na_init.1
      [⟨0x1b3, 0x10⟩, ⟨0x1b3, 0x20⟩]).2 (by decide),
   ((epson_e01161na_mem_remap 0 0x1b3 0x10 epson_e01161na_init.1 []).1).trans (by decide)⟩

/-- Bits replaced under a mask `m` read back as the replacement under a disjoint mask `k`. -/
theorem masked_or_new (s m e k : Nat) (h1 : m &&& k = 0) (h2 : e &&& k = e) :
    ((s &&& m) ||| e) &&& k = e := by
  rw [or_and_mask, Nat.and_assoc, h1, Nat.and_zero, Nat.zero_or, h2]

/-- Bits kept under a mask `m` are not disturbed by a replacement outside `m`. -/
theorem masked_or_keep (s m e : Nat) (h2 : e &&& m = 0) :
    ((s &&& m) ||| e) &&& m = s &&& m := by
  rw [or_and_mask, Nat.and_assoc, Nat.and_self, h2, Nat.or_zero]

namespace E01161NA

/-- The read of offset 3 on a 386-class configuration, by the table of the specification. -/
theorem read_offset3_386 (is386 mem_size port : Nat) (dev : epson_e01161na_t)
    (hp : port &&& 0xf = 3) (h : is386 ≠ 0) :
    epson_e01161na_read is386 mem_size port dev = (dev.reg 3 &&& 0xf8) ||| bucket386 mem_size := by
  unfold epson_e01161na_read bucket386
  simp only [hp, h, ne_eq, not_false_eq_true, if_true]
  split <;> simp_all

/-- The read of offset 3 on a 286-class configuration, by the table of the specification. -/
theorem read_offset3_286 (mem_size port : Nat) (dev : epson_e01161na_t)
    (hp : port &&& 0xf = 3) :
    epson_e01161na_read 0 mem_size port dev = (dev.reg 3 &&& 0xf1) ||| code286 mem_size := by
  unfold epson_e01161na_read code286
  simp only [hp, ne_eq, not_true_eq_false, if_false]
  split <;> simp_all

end E01161NA

open E01161NA in
/-- C17. With `is386` set, for every stored value `s` of register 3 and every `mem_size`, a read
of offset 3 returns `(s & 0xF8) | b` with `b` the bucket of the 386 table (0 for 0x400, 1 for
0x800 or 0xC00, 2 for 0x1000 or 0x1400, 3 for every other size): bits 2:0 of the result are the
bucket and bits 7:3 are those of `s`.  The read handler has no store, so the stored value is as
it was. -/
theorem epson_e01161na_read_386 (is386 mem_size port : Nat) (dev : epson_e01161na_t)
    (hp : port &&& 0xf = 3) (h : is386 ≠ 0) :
    epson_e01161na_read is386 mem_size port dev = (dev.reg 3 &&& 0xf8) ||| bucket386 mem_size ∧
    epson_e01161na_read is386 mem_size port dev &&& 0x07 = bucket386 mem_size ∧
    epson_e01161na_read is386 mem_size port dev &&& 0xf8 = dev.reg 3 &&& 0xf8 := by
  rw [read_offset3_386 is386 mem_size port dev hp h]
  refine ⟨rfl, ?_, ?_⟩
  · apply masked_or_new _ _ _ _ (by decide)
    unfold bucket386
    split_ifs <;> decide
  · apply masked_or_keep
    unfold bucket386
    split_ifs <;> decide

open E01161NA in
/-- Witness of C17: 4 MB on a 386-class configuration with 0xFF stored reads 0xFA. -/
theorem epson_e01161na_read_386_witness :
    epson_e01161na_read 1 0x1000 0x1b3 { reg := fun _ => 0xff } = 0xfa :=
  ((epson_e01161na_read_386 1 0x1000 0x1b3 { reg := fun _ => 0xff } (by decide)
    (by decide)).1).trans (by decide)

open E01161NA in
/-- C18. With `is386` clear, for every stored value `s` of register 3 and every `mem_size`, a
read of offset 3 returns `(s & 0xF1) | e` with `e` the code of the 286 table (0x00 for 0x400,
0x0C for 0x800, 0x0A for 0xC00 or 0x1000, 0x0E for every other size): bits 3:1 of the result are
the code (110 for 2 MB, 101 for 3 MB, 111 for 5 MB, 000 for 1 MB) and bits 7:4 and bit 0 are
those of `s`. -/
theorem epson_e01161na_read_286 (mem_size port : Nat) (dev : epson_e01161na_t)
    (hp : port &&& 0xf = 3) :
    epson_e01161na_read 0 mem_size port dev = (dev.reg 3 &&& 0xf1) ||| code286 mem_size ∧
    epson_e01161na_read 0 mem_size port dev &&& 0x0e = code286 mem_size ∧
    epson_e01161na_read 0 mem_size port dev &&& 0xf1 = dev.reg 3 &&& 0xf1 ∧
    (code286 0x400 = 0b0000 ∧ code286 0x800 = 0b1100 ∧ code286 0xc00 = 0b1010 ∧
      code286 0x1400 = 0b1110) := by
  rw [read_offset3_286 mem_size port dev hp]
  refine ⟨rfl, ?_, ?_, by decide⟩
  · apply masked_or_new _ _ _ _ (by decide)
    unfold code286
    split_ifs <;> decide
  · apply masked_or_keep
    unfold code286
    split_ifs <;> decide

open E01161NA in
/-- Witness of C18: 2 MB on a 286-class configuration with 0xFF stored reads 0xFD. -/
theorem epson_e01161na_read_286_witness :
    epson_e01161na_read 0 0x800 0x1b3 { reg := fun _ => 0xff } = 0xfd :=
  ((epson_e01161na_read_286 0x800 0x1b3 { reg := fun _ => 0xff } (by decide)).1).trans
    (by decide)

open E01161NA in
/-- C19. For every device state, CPU generation and memory size, a read of port 0x1B6 returns
0x10, also right after any byte was written to that port. -/
theorem epson_e01161na_presence (is386 is386w mem_size v : Nat) (dev : epson_e01161na_t) :
    epson_e01161na_read is386 mem_size 0x1b6 dev = 0x10 ∧
    epson_e01161na_read is386 mem_size 0x1b6 (epson_e01161na_write is386w 0x1b6 v dev).1 =
      0x10 := by
  have hp : (0x1b6 &&& 0xf : Nat) = 6 := by decide
  constructor <;> simp [epson_e01161na_read, hp]

open E01161NA in
/-- C20. For every port `p` and byte `v`, a write of `v` to `p` sets register `p & 0xF` to `v`,
whatever the offset, and leaves every other register unchanged; for an offset other than 3 and 6
a following read of `p` returns `v`. -/
theorem epson_e01161na_store_readback (is386 is386r mem_size p v : Nat)
    (dev : epson_e01161na_t) :
    (epson_e01161na_write is386 p v dev).1.reg (p &&& 0xf) = v ∧
    (∀ j, j ≠ p &&& 0xf → (epson_e01161na_write is386 p v dev).1.reg j = dev.reg j) ∧
    (p &&& 0xf ≠ 3 → p &&& 0xf ≠ 6 →
      epson_e01161na_read is386r mem_size p (epson_e01161na_write is386 p v dev).1 = v) := by
  rw [write_fst]
  refine ⟨setReg_same _ _ _, fun j hj => setReg_other _ _ _ _ hj, ?_⟩
  intro h3 h6
  unfold epson_e01161na_read
  simp only
  exact setReg_same _ _ _

open E01161NA in
/-- Witness of C20: 0xA5 written to port 0x1B5 (an offset with no side effect) reads back. -/
theorem epson_e01161na_store_readback_witness :
    epson_e01161na_read 0 0x400 0x1b5 (epson_e01161na_write 0 0x1b5 0xa5
      epson_e01161na_init.1).1 = 0xa5 :=
  (epson_e01161na_store_readback 0 0 0x400 0x1b5 0xa5 epson_e01161na_init.1).2.2
    (by decide) (by decide)

/-- The ports the NORD gate array registers: 0x10 to 0x13, 0x94 and 0x98. -/
theorem nord_registered_iff (port : Nat) :
    registered olivetti_nord_init.2 port = true ↔
      (0x10 ≤ port ∧ port ≤ 0x13) ∨ port = 0x94 ∨ port = 0x98 := by
  simp only [registered, olivetti_nord_init, List.any_cons, List.any_nil, Bool.or_false,
    Bool.or_eq_true, decide_eq_true_eq]
  omega

/-- The offsets decoded from the registered ports of the NORD gate array. -/
theorem nord_registered_offset (port : Nat) (h : registered olivetti_nord_init.2 port = true) :
    port &&& 0xf = 0 ∨ port &&& 0xf = 1 ∨ port &&& 0xf = 2 ∨ port &&& 0xf = 3 ∨
      port &&& 0xf = 4 ∨ port &&& 0xf = 8 := by
  rcases (nord_registered_iff port).1 h with ⟨h1, h2⟩ | h1 | h1
  · interval_cases port <;> decide
  · subst h1; decide
  · subst h1; decide

/-- A read after a write on an offset other than 3 returns the byte with bit 5 cleared. -/
theorem nord_read_write (hasfpu port v : Nat) (dev : olivetti_nord_t) (h3 : port &&& 0xf ≠ 3) :
    olivetti_nord_read hasfpu port (olivetti_nord_write port v dev).1 = v &&& 0xdf := by
  unfold olivetti_nord_read olivetti_nord_write
  simp only
  exact setReg_same _ _ _

/-- Clearing bit 5 of a byte that has bit 5 clear changes nothing. -/
theorem and_df_of_bit5_clear (v : Nat) (hv : v < 256) (h5 : v &&& 0x20 = 0) : v &&& 0xdf = v := by
  have hff : v &&& 0xff = v := by
    have := Nat.and_pow_two_sub_one_eq_mod v 8
    rw [show (2 ^ 8 - 1 : Nat) = 0xff by decide] at this
    rw [this]; exact Nat.mod_eq_of_lt hv
  have hsplit : (0xdf ||| 0x20 : Nat) = 0xff := by decide
  calc v &&& 0xdf = (v &&& 0xdf) ||| (v &&& 0x20) := by rw [h5, Nat.or_zero]
    _ = v &&& (0xdf ||| 0x20) := (Nat.and_or_distrib_left v 0xdf 0x20).symm
    _ = v := by rw [hsplit, hff]

/-- A byte with bit 5 cleared has bit 5 clear. -/
theorem and_df_bit5 (v : Nat) : (v &&& 0xdf) &&& 0x20 = 0 := by
  rw [Nat.and_assoc, show (0xdf &&& 0x20 : Nat) = 0 by decide, Nat.and_zero]

/-- C21, as stated, fails: 0x20 written to the registered port 0x10 (offset 0) reads back 0x00. -/
theorem olivetti_nord_readback_refuted :
    registered olivetti_nord_init.2 0x10 = true ∧ (0x10 &&& 0xf : Nat) ≠ 3 ∧
    ¬ (olivetti_nord_read 0 0x10 (olivetti_nord_write 0x10 0x20 olivetti_nord_init.1).1 =
        0x20) := by
  decide

/-- C21, amended. For every registered port of the NORD gate array whose offset is not 3 and
every byte `v`, a read of that port after a write of `v` to it returns `v & 0xDF`: it returns `v`
when bit 5 of `v` is clear and differs from `v` when bit 5 is set. -/
theorem olivetti_nord_readback (hasfpu port v : Nat) (dev : olivetti_nord_t)
    (hreg : registered olivetti_nord_init.2 port = true) (h3 : port &&& 0xf ≠ 3) :
    (port &&& 0xf = 0 ∨ port &&& 0xf = 1 ∨ port &&& 0xf = 2 ∨ port &&& 0xf = 4 ∨
      port &&& 0xf = 8) ∧
    olivetti_nord_read hasfpu port (olivetti_nord_write port v dev).1 = v &&& 0xdf ∧
    (v < 256 → v &&& 0x20 = 0 →
      olivetti_nord_read hasfpu port (olivetti_nord_write port v dev).1 = v) ∧
    (v &&& 0x20 ≠ 0 →
      olivetti_nord_read hasfpu port (olivetti_nord_write port v dev).1 ≠ v) := by
  rw [nord_read_write hasfpu port v dev h3]
  refine ⟨?_, rfl, fun hv h5 => and_df_of_bit5_clear v hv h5, ?_⟩
  · rcases nord_registered_offset port hreg with h | h | h | h | h | h
    · exact Or.inl h
    · exact Or.inr (Or.inl h)
    · exact Or.inr (Or.inr (Or.inl h))
    · exact absurd h h3
    · exact Or.inr (Or.inr (Or.inr (Or.inl h)))
    · exact Or.inr (Or.inr (Or.inr (Or.inr h)))
  · intro h5 he
    have := and_df_bit5 v
    rw [he] at this
    exact h5 this

/-- Witness of C21 amended: 0x5A (bit 5 clear) written to port 0x94 reads back 0x5A. -/
theorem olivetti_nord_readback_witness :
    olivetti_nord_read 1 0x94 (olivetti_nord_write 0x94 0x5a olivetti_nord_init.1).1 = 0x5a :=
  (olivetti_nord_readback 1 0x94 0x5a olivetti_nord_init.1 (by decide) (by decide)).2.2.1
    (by decide) (by decide)

/-- Every register of the NORD gate array keeps bit 5 clear along any sequence of writes. -/
theorem nord_run_bit5 (ws : List PortWrite) :
    ∀ dev : olivetti_nord_t, (∀ j, dev.reg j &&& 0x20 = 0) →
      ∀ j, (olivetti_nord_run dev ws).reg j &&& 0x20 = 0 := by
  induction ws with
  | nil => intro dev h j; exact h j
  | cons w ws ih =>
    intro dev h j
    simp only [olivetti_nord_run]
    apply ih
    intro k
    simp only [olivetti_nord_write, setReg]
    split_ifs
    · exact and_df_bit5 _
    · exact h k

/-- C22. For every registered port of the NORD gate array and every byte `v`, a write of `v`
stores `v & 0xDF` in register `port & 0xF` (an offset inside the register file), changes no other
register and makes no call; in every
state reached from init by writes to registered ports every register has bit 5 clear; and a read
of an offset other than 3 after the write returns `v & 0xDF`. -/
theorem olivetti_nord_write_masking (hasfpu port v : Nat) (dev : olivetti_nord_t)
    (ws : List PortWrite) (hreg : registered olivetti_nord_init.2 port = true) :
    port &&& 0xf < olivetti_nord_reg_len ∧
    (olivetti_nord_write port v dev).1.reg (port &&& 0xf) = v &&& 0xdf ∧
    (∀ j, j ≠ port &&& 0xf → (olivetti_nord_write port v dev).1.reg j = dev.reg j) ∧
    (olivetti_nord_write port v dev).1.mem_remap = dev.mem_remap ∧
    (olivetti_nord_write port v dev).2 = [] ∧
    ((∀ w ∈ ws, registered olivetti_nord_init.2 w.port = true) →
      ∀ j, (olivetti_nord_run olivetti_nord_init.1 ws).reg j &&& 0x20 = 0) ∧
    (port &&& 0xf ≠ 3 →
      olivetti_nord_read hasfpu port (olivetti_nord_write port v dev).1 = v &&& 0xdf) := by
  refine ⟨?_, setReg_same _ _ _, fun j hj => setReg_other _ _ _ _ hj, rfl, rfl, ?_, ?_⟩
  · have ho := nord_registered_offset port hreg
    unfold olivetti_nord_reg_len
    omega
  · intro _ j
    exact nord_run_bit5 ws olivetti_nord_init.1 (fun _ => Nat.zero_and _) j
  · exact nord_read_write hasfpu port v dev

/-- Witness of C22: 0xFF written to port 0x11 is stored as 0xDF, and after two writes to
registered ports register 1 has bit 5 clear. -/
theorem olivetti_nord_write_masking_witness :
    (olivetti_nord_write 0x11 0xff olivetti_nord_init.1).1.reg (0x11 &&& 0xf) = 0xff &&& 0xdf ∧
    (olivetti_nord_run olivetti_nord_init.1 [⟨0x11, 0xff⟩, ⟨0x98, 0x20⟩]).reg 1 &&& 0x20 = 0 :=
  ⟨(olivetti_nord_write_masking 0 0x11 0xff olivetti_nord_init.1 [] (by decide)).2.1,
   (olivetti_nord_write_masking 0 0x11 0xff olivetti_nord_init.1 [⟨0x11, 0xff⟩, ⟨0x98, 0x20⟩]
      (by decide)).2.2.2.2.2.1 (by decide) 1⟩

/-- C23. For every stored value `s` of register 3 of the NORD gate array, a read of offset 3
returns `(s & 0xDF) | 0x20` when an FPU is present and `s & 0xDF` when it is not: bit 5 of the
result is the FPU presence and the other seven bits are those of `s`.  The read handler has no
store, so the stored value is as it was. -/
theorem olivetti_nord_fpu_read (hasfpu port : Nat) (dev : olivetti_nord_t)
    (hp : port &&& 0xf = 3) :
    olivetti_nord_read hasfpu port dev =
      (if hasfpu ≠ 0 then (dev.reg 3 &&& 0xdf) ||| 0x20 else dev.reg 3 &&& 0xdf) ∧
    olivetti_nord_read hasfpu port dev &&& 0x20 = (if hasfpu ≠ 0 then 0x20 else 0) ∧
    olivetti_nord_read hasfpu port dev &&& 0xdf = dev.reg 3 &&& 0xdf := by
  have hr : olivetti_nord_read hasfpu port dev =
      (if hasfpu ≠ 0 then (dev.reg 3 &&& 0xdf) ||| 0x20 else dev.reg 3 &&& 0xdf) := by
    simp [olivetti_nord_read, hp]
  rw [hr]
  refine ⟨rfl, ?_, ?_⟩
  · split_ifs
    · exact masked_or_new _ _ _ _ (by decide) (by decide)
    · exact and_df_bit5 _
  · split_ifs
    · exact masked_or_keep _ _ _ (by decide)
    · rw [Nat.and_assoc, Nat.and_self]

/-- Witness of C23: with 0xFF stored, port 0x13 reads 0xFF with an FPU and 0xDF without. -/
theorem olivetti_nord_fpu_read_witness :
    olivetti_nord_read 1 0x13 { reg := fun _ => 0xff, mem_remap := 0 } = 0xff ∧
    olivetti_nord_read 0 0x13 { reg := fun _ => 0xff, mem_remap := 0 } = 0xdf :=
  ⟨((olivetti_nord_fpu_read 1 0x13 { reg := fun _ => 0xff, mem_remap := 0 }
      (by decide)).1).trans (by decide),
   ((olivetti_nord_fpu_read 0 0x13 { reg := fun _ => 0xff, mem_remap := 0 }
      (by decide)).1).trans (by decide)⟩

/-- The read handler of the NORD gate array returns the register at offset `port & 0xF`,
except at offset 3. -/
theorem nord_read_other (hasfpu port : Nat) (dev : olivetti_nord_t) (h3 : port &&& 0xf ≠ 3) :
    olivetti_nord_read hasfpu port dev = dev.reg (port &&& 0xf) := by
  unfold olivetti_nord_read
  simp only

/-- The read handler of the NORD gate array consults only the register at offset `port & 0xF`. -/
theorem nord_read_congr (hasfpu port : Nat) (dev dev2 : olivetti_nord_t)
    (h : dev.reg (port &&& 0xf) = dev2.reg (port &&& 0xf)) :
    olivetti_nord_read hasfpu port dev = olivetti_nord_read hasfpu port dev2 := by
  unfold olivetti_nord_read
  simp only [h]

/-- C30. For every port the NORD gate array registers (0x10 to 0x13, 0x94, 0x98) the offset
`port & 0xF` decoded by the handlers is one of 0, 1, 2, 3, 4, 8 and so below the register-file
length 9: `olivetti_nord_write` stores its byte at an index below 9 and leaves every index from 9
upward as it was, and the result of `olivetti_nord_read` is decided by the registers below 9.
For a port whose low nibble is 9 or more the handlers index at or past the length: the write
leaves all nine registers of the array as they were and puts its byte at index `port & 0xF`, and
the read returns what is at that index. -/
theorem olivetti_nord_index_bounds (hasfpu port v : Nat) (dev dev2 : olivetti_nord_t) :
    (registered olivetti_nord_init.2 port = true ↔
      (0x10 ≤ port ∧ port ≤ 0x13) ∨ port = 0x94 ∨ port = 0x98) ∧
    (registered olivetti_nord_init.2 port = true →
      (port &&& 0xf = 0 ∨ port &&& 0xf = 1 ∨ port &&& 0xf = 2 ∨ port &&& 0xf = 3 ∨
        port &&& 0xf = 4 ∨ port &&& 0xf = 8) ∧
      port &&& 0xf < olivetti_nord_reg_len ∧
      (∃ j, j < olivetti_nord_reg_len ∧
        (olivetti_nord_write port v dev).1.reg j = v &&& 0xdf ∧
        ∀ k, k ≠ j → (olivetti_nord_write port v dev).1.reg k = dev.reg k) ∧
      (∀ k, olivetti_nord_reg_len ≤ k → (olivetti_nord_write port v dev).1.reg k = dev.reg k) ∧
      ((∀ k, k < olivetti_nord_reg_len → dev.reg k = dev2.reg k) →
        olivetti_nord_read hasfpu port dev = olivetti_nord_read hasfpu port dev2)) ∧
    (9 ≤ port &&& 0xf →
      ¬ (port &&& 0xf < olivetti_nord_reg_len) ∧
      (olivetti_nord_write port v dev).1.reg (port &&& 0xf) = v &&& 0xdf ∧
      (∀ k, k < olivetti_nord_reg_len → (olivetti_nord_write port v dev).1.reg k = dev.reg k) ∧
      olivetti_nord_read hasfpu port dev = dev.reg (port &&& 0xf)) := by
  refine ⟨nord_registered_iff port, ?_, ?_⟩
  · intro h
    have ho := nord_registered_offset port h
    have hlt : port &&& 0xf < olivetti_nord_reg_len := by
      unfold olivetti_nord_reg_len
      omega
    refine ⟨ho, hlt, ⟨port &&& 0xf, hlt, setReg_same _ _ _, ?_⟩, ?_, ?_⟩
    · intro k hk
      exact setReg_other _ _ _ _ hk
    · intro k hk
      exact setReg_other _ _ _ _ (by omega)
    · intro hagree
      exact nord_read_congr hasfpu port dev dev2 (hagree _ hlt)
  · intro h
    refine ⟨?_, setReg_same _ _ _, ?_, ?_⟩
    · unfold olivetti_nord_reg_len
      omega
    · intro k hk
      unfold olivetti_nord_reg_len at hk
      exact setReg_other _ _ _ _ (by omega)
    · exact nord_read_other hasfpu port dev (by omega)

/-- Witness of C30: port 0x98 is registered and decodes to offset 8, below 9; a write of 0xFF to
it leaves index 9 as it was. -/
theorem olivetti_nord_index_bounds_witness :
    registered olivetti_nord_init.2 0x98 = true ∧ 0x98 &&& 0xf < olivetti_nord_reg_len ∧
    (olivetti_nord_write 0x98 0xff olivetti_nord_init.1).1.reg 9 = olivetti_nord_init.1.reg 9 :=
  ⟨by decide,
   ((olivetti_nord_index_bounds 0 0x98 0xff olivetti_nord_init.1 olivetti_nord_init.1).2.1
      (by decide)).2.1,
   ((olivetti_nord_index_bounds 0 0x98 0xff olivetti_nord_init.1 olivetti_nord_init.1).2.1
      (by decide)).2.2.2.1 9 (by decide)⟩

/-- C24, the code at the failing input. Init registers the range 0xE5 to 0xE7, which covers none
of the ports 0x65, 0x67, 0x69 the handlers decode; on the registered port 0xE5 a write of 0x12
changes no register and the following read returns 0xFF, not 0x12. -/
theorem epson_e01243nc_port_map_divergence :
    epson_e01243nc_init.2 = [Call.io_sethandler 0x00e5 0x0003] ∧
    registered epson_e01243nc_init.2 0x65 = false ∧
    registered epson_e01243nc_init.2 0x67 = false ∧
    registered epson_e01243nc_init.2 0x69 = false ∧
    registered epson_e01243nc_init.2 0xe5 = true ∧
    (epson_e01243nc_write 0xe5 0x12 epson_e01243nc_init.1).1 = epson_e01243nc_init.1 ∧
    epson_e01243nc_read 0xe5 (epson_e01243nc_write 0xe5 0x12 epson_e01243nc_init.1).1 = 0xff := by
  decide

/-- C25. Olivetti EVA (ports 0x65, 0x67, 0x69) and Olivetti IOC02 (ports 0x68, 0x6A, 0x6C): a
write of `v` to one of the three ports stores `v` in that register, leaves the other two as they
were and makes no call, and a following read of that port returns `v`; a read of any other port
returns 0xFF and a write to any other port changes nothing and makes no call. -/
theorem three_port_pass_through (port v : Nat) (e : olivetti_eva_t) (c : olivetti_ioc02_t) :
    (olivetti_eva_write 0x65 v e = ({ e with reg_065 := v }, []) ∧
      olivetti_eva_write 0x67 v e = ({ e with reg_067 := v }, []) ∧
      olivetti_eva_write 0x69 v e = ({ e with reg_069 := v }, []) ∧
      (port = 0x65 ∨ port = 0x67 ∨ port = 0x69 →
        (olivetti_eva_write port v e).2 = [] ∧
        olivetti_eva_read port (olivetti_eva_write port v e).1 = v) ∧
      (port ≠ 0x65 → port ≠ 0x67 → port ≠ 0x69 →
        olivetti_eva_read port e = 0xff ∧ olivetti_eva_write port v e = (e, []))) ∧
    (olivetti_ioc02_write 0x68 v c = ({ c with reg_068 := v }, []) ∧
      olivetti_ioc02_write 0x6a v c = ({ c with reg_06a := v }, []) ∧
      olivetti_ioc02_write 0x6c v c = ({ c with reg_06c := v }, []) ∧
      (port = 0x68 ∨ port = 0x6a ∨ port = 0x6c →
        (olivetti_ioc02_write port v c).2 = [] ∧
        olivetti_ioc02_read port (olivetti_ioc02_write port v c).1 = v) ∧
      (port ≠ 0x68 → port ≠ 0x6a → port ≠ 0x6c →
        olivetti_ioc02_read port c = 0xff ∧ olivetti_ioc02_write port v c = (c, []))) := by
  refine ⟨⟨rfl, rfl, rfl, ?_, ?_⟩, ⟨rfl, rfl, rfl, ?_, ?_⟩⟩
  · rintro (h | h | h) <;> subst h <;> exact ⟨rfl, rfl⟩
  · intro h1 h2 h3
    unfold olivetti_eva_read olivetti_eva_write
    constructor <;> simp only
  · rintro (h | h | h) <;> subst h <;> exact ⟨rfl, rfl⟩
  · intro h1 h2 h3
    unfold olivetti_ioc02_read olivetti_ioc02_write
    constructor <;> simp only

/-- Witness of C25: 0xA5 written to 0x69 of the EVA and to 0x6A of the IOC02 reads back; port
0x66 of the EVA reads 0xFF. -/
theorem three_port_pass_through_witness :
    olivetti_eva_read 0x69 (olivetti_eva_write 0x69 0xa5 olivetti_eva_init.1).1 = 0xa5 ∧
    olivetti_ioc02_read 0x6a (olivetti_ioc02_write 0x6a 0xa5 olivetti_ioc02_init.1).1 = 0xa5 ∧
    olivetti_eva_read 0x66 olivetti_eva_init.1 = 0xff :=
  ⟨((three_port_pass_through 0x69 0xa5 olivetti_eva_init.1 olivetti_ioc02_init.1).1.2.2.2.1
      (by decide)).2,
   ((three_port_pass_through 0x6a 0xa5 olivetti_eva_init.1 olivetti_ioc02_init.1).2.2.2.2.1
      (by decide)).2,
   ((three_port_pass_through 0x66 0xa5 olivetti_eva_init.1 olivetti_ioc02_init.1).1.2.2.2.2
      (by decide) (by decide) (by decide)).1⟩

namespace VL82C107

/-- The register file just after init: 0xCF at 0x1E, 0x70 at 0x1F, zero elsewhere; index 0. -/
theorem init_state (local_flag : Nat) :
    (vl82c107_init local_flag).1 =
      { index := 0, fdc_function := local_flag % 256,
        regs := setReg (setReg (fun _ => 0) 0x1e 0xcf) 0x1f 0x70 } := rfl

/-- A one-bit field read with a shift and a mask, as quotient and remainder. -/
theorem shift_and_one (x n : Nat) : (x >>> n) &&& 1 = x / 2 ^ n % 2 := by
  rw [Nat.shiftRight_eq_div_pow, Nat.and_one_is_mod]

/-- The serial branch of the write never reaches an attach: the handler is called for a UART
only when its bit is 1, and it attaches only when that bit is 0. -/
theorem csctrl_serial_decode (dev : vl82c107_t) (v valxor : Nat) (hv : dev.regs dev.index = v) :
    csctrl_serial dev v valxor =
      if valxor &&& 0xe ≠ 0 then [Call.serial_remove 0, Call.serial_remove 1] else [] := by
  have h2 : v &&& 4 = 4 * (v / 4 % 2) := and_two_pow_bit v 2
  have h3 : v &&& 8 = 8 * (v / 8 % 2) := and_two_pow_bit v 3
  have s2 : (v >>> (2 + 0)) &&& 1 = v / 4 % 2 := shift_and_one v 2
  have s3 : (v >>> (2 + 1)) &&& 1 = v / 8 % 2 := shift_and_one v 3
  have e0 : (if v &&& 4 ≠ 0 then serial_handler dev 0 else []) = [] := by
    unfold serial_handler
    simp only [hv, s2, h2]
    split_ifs <;> first | rfl | omega
  have e1 : (if v &&& 8 ≠ 0 then serial_handler dev 1 else []) = [] := by
    unfold serial_handler
    simp only [hv, s3, h3]
    split_ifs <;> first | rfl | omega
  unfold csctrl_serial
  rw [e0, e1]
  simp

/-- A trace of calls of a class other than serial has no UART attach. -/
theorem filter_setup_of_class (p : Peripheral) (t : List Call)
    (h : ∀ c ∈ t, c.peripheral = p) (hp : p ≠ Peripheral.serial) :
    t.filter isSerialSetup = [] := by
  rw [List.filter_eq_nil_iff]
  intro c hc hs
  have hcp := h c hc
  cases c <;> simp [isSerialSetup] at hs
  exact hp (hcp.symm.trans rfl)

/-- No port write attaches a UART. -/
theorem write_no_serial_setup (port v : Nat) (dev : vl82c107_t) :
    (vl82c107_write port v dev).2.filter isSerialSetup = [] := by
  unfold vl82c107_write
  split
  · rfl
  · split_ifs
    · simp only
      split
      · rename_i hidx
        simp only [List.filter_append]
        rw [filter_setup_of_class _ _ (csctrl_ide_class _ _) (by decide),
          filter_setup_of_class _ _ (csctrl_lpt_class _ _ _) (by decide),
          filter_setup_of_class _ _ (csctrl_fdc_class _ _ _) (by decide),
          csctrl_serial_decode _ v _ (setReg_same dev.regs dev.index v)]
        split_ifs <;> rfl
      · rfl
    · rfl
  · rfl

end VL82C107

open VL82C107 in
/-- C26. Right after init (either floppy flag), selecting index 0x1E and reading the data port
returns 0xCF, selecting 0x1F returns 0x70, and selecting any index in 0x1B..0x1D returns 0x00. -/
theorem vl82c107_reset_defaults (local_flag i : Nat) :
    vl82c107_read 0xed (vl82c107_write 0xec 0x1e (vl82c107_init local_flag).1).1 = 0xcf ∧
    vl82c107_read 0xed (vl82c107_write 0xec 0x1f (vl82c107_init local_flag).1).1 = 0x70 ∧
    (0x1b ≤ i ∧ i ≤ 0x1d →
      vl82c107_read 0xed (vl82c107_write 0xec i (vl82c107_init local_flag).1).1 = 0x00) := by
  rw [init_state]
  refine ⟨by simp [vl82c107_read, vl82c107_write, setReg],
    by simp [vl82c107_read, vl82c107_write, setReg], ?_⟩
  intro hi
  have h1 : i ≠ 0x1e := by omega
  have h2 : i ≠ 0x1f := by omega
  have h3 : i ≤ 0x1f := by omega
  simp [vl82c107_read, vl82c107_write, setReg, hi.1, h1, h2, h3]

open VL82C107 in
/-- Witness of C26: index 0x1C reads 0x00 right after init. -/
theorem vl82c107_reset_defaults_witness :
    vl82c107_read 0xed (vl82c107_write 0xec 0x1c (vl82c107_init 1).1).1 = 0x00 :=
  (vl82c107_reset_defaults 1 0x1c).2.2 (by decide)

open E01161NA in
/-- C27, the code at the failing inputs. On a 386-class configuration with `mem_size = 0x600`
(1.5 MB, below 0x1800) the read of offset 3 returns bucket 3; on a 286-class configuration with
`mem_size = 0x280` (640 KB, below 0x1400) it returns the encoding 0x0E. -/
theorem epson_e01161na_threshold_divergence :
    epson_e01161na_read 1 0x600 0x1b3 { reg := fun _ => 0 } = 0x03 ∧ (0x600 : Nat) < 0x1800 ∧
    epson_e01161na_read 0 0x280 0x1b3 { reg := fun _ => 0 } = 0x0e ∧ (0x280 : Nat) < 0x1400 := by
  decide

open VL82C107 in
/-- C28, as stated, fails: on a fresh instance created with the floppy capability flag the trace
of the reset routine is not the seven parallel and serial calls alone. -/
theorem vl82c107_initial_attach_refuted :
    ¬ ((vl82c107_reset { index := 0, fdc_function := 1, regs := fun _ => 0 }).2 =
        [Call.lpt1_remove, Call.lpt1_init 0x3bc, Call.lpt1_irq 7,
         Call.serial_remove 0, Call.serial_remove 1,
         Call.serial_setup 0 0x3e8 4, Call.serial_setup 1 0x2e8 3]) := by
  decide

open VL82C107 in
/-- C28, amended. On an instance with index 0 and register 0 equal to 0x00 the reset routine
stores 0xCF in the master control byte but decodes the register selected by the index, which
still reads 0x00; its trace is `lpt1_remove`, `lpt1_init(0x3BC)`, `lpt1_irq(7)`, `serial_remove`
of both UARTs, `serial_setup(A, 0x3E8, 4)`, `serial_setup(B, 0x2E8, 3)`, followed by `fdc_reset`
exactly when the instance has the floppy capability flag. -/
theorem vl82c107_initial_attach (dev : vl82c107_t) (h0 : dev.index = 0) (hr : dev.regs 0 = 0x00) :
    (vl82c107_reset dev).2 =
      [Call.lpt1_remove, Call.lpt1_init 0x3bc, Call.lpt1_irq 7,
       Call.serial_remove 0, Call.serial_remove 1,
       Call.serial_setup 0 0x3e8 4, Call.serial_setup 1 0x2e8 3] ++
      (if dev.fdc_function ≠ 0 then [Call.fdc_reset] else []) ∧
    (vl82c107_reset dev).1.regs 0x1e = 0xcf ∧
    (vl82c107_reset dev).1.regs (vl82c107_reset dev).1.index = 0x00 := by
  refine ⟨?_, ?_, ?_⟩
  · simp [vl82c107_reset, lpt1_handler, serial_handler, setReg, h0, hr]
  · simp [vl82c107_reset, setReg]
  · simp [vl82c107_reset, setReg, h0, hr]

open VL82C107 in
/-- Witness of C28 amended: the fresh instance without the floppy flag. -/
theorem vl82c107_initial_attach_witness :
    (vl82c107_reset { index := 0, fdc_function := 0, regs := fun _ => 0 }).2 =
      [Call.lpt1_remove, Call.lpt1_init 0x3bc, Call.lpt1_irq 7,
       Call.serial_remove 0, Call.serial_remove 1,
       Call.serial_setup 0 0x3e8 4, Call.serial_setup 1 0x2e8 3] :=
  ((vl82c107_initial_attach { index := 0, fdc_function := 0, regs := fun _ => 0 } rfl rfl).1).trans
    (by decide)

open VL82C107 in
/-- C29. For every device state and every port write (any port, any value) the trace of the
write has no `serial_setup`; and a data-port write at index 0x1E that changes any of bits 1-3
makes exactly the serial calls `serial_remove` of UART A and of UART B. -/
theorem vl82c107_no_serial_attach_on_write (port v : Nat) (dev : vl82c107_t) :
    (vl82c107_write port v dev).2.filter isSerialSetup = [] ∧
    (dev.index = 0x1e → (dev.regs 0x1e ^^^ v) &&& 0xe ≠ 0 →
      (vl82c107_write 0xed v dev).2.filter (fun c => decide (c.peripheral = Peripheral.serial)) =
        [Call.serial_remove 0, Call.serial_remove 1]) := by
  refine ⟨write_no_serial_setup port v dev, ?_⟩
  intro h hx
  rw [write_csctrl dev v h]
  simp only [List.filter_append]
  rw [filter_class_other _ _ _ (csctrl_ide_class _ _) (by decide),
    filter_class_self _ _ (csctrl_serial_class _ _ _),
    filter_class_other _ _ _ (csctrl_lpt_class _ _ _) (by decide),
    filter_class_other _ _ _ (csctrl_fdc_class _ _ _) (by decide)]
  simp only [List.nil_append, List.append_nil]
  rw [csctrl_serial_decode _ v _ (by simp only [h, setReg_same]), Nat.xor_comm v, if_pos hx]

open VL82C107 in
/-- Witness of C29: from the reset default 0xCF, the byte 0xC1 (bits 1-3 cleared) removes both
UARTs and attaches none. -/
theorem vl82c107_no_serial_attach_on_write_witness :
    (vl82c107_write 0xed 0xc1
        { index := 0x1e, fdc_function := 0, regs := setReg (fun _ => 0) 0x1e 0xcf }).2.filter
      (fun c => decide (c.peripheral = Peripheral.serial)) =
      [Call.serial_remove 0, Call.serial_remove 1] :=
  (vl82c107_no_serial_attach_on_write 0xed 0xc1
    { index := 0x1e, fdc_function := 0, regs := setReg (fun _ => 0) 0x1e 0xcf }).2 rfl (by decide)
